import Mathlib

/-!
Bank ledger of `Bank.go`.

A shallow embedding of the ledger part of `Bank.go` (`Account`, `Bank`, `NewBank`,
`CreateAccount`, `Deposit`, `Withdraw`, `GetBalance`) together with a model of the
`float64` values the balances and amounts are made of.

Model of `float64`.

A `float64` is IEEE 754 binary64.  Every finite binary64 value is an integer multiple of
`2^(-1074)` (the smallest subnormal), so a finite value is stored as a sign and the natural
number `n` with `|x| = n * 2^(-1074)`.  NaN payloads are not distinguished.  Arithmetic is the
exact operation followed by round-to-nearest, ties-to-even (`F64.roundNat`), which is what
Go's `+` and `-` on `float64` do.

Model of the ledger.

`map[string]*Account` is a total function `String → Option Account`; `NewBank` is the only
constructor of a `Bank` in the program, so the map is never nil and no stored pointer is nil.
Every method takes the ledger and returns its result together with the ledger after the call.
A Go `error` is modelled by its message.

The namespace `Raw` holds the same four methods over a map that may be nil and may hold nil
pointers, with the run-time panics explicit; on the ledgers reachable from `NewBank` it agrees
with the model above and never panics.
-/

namespace BankLedger

/-! ## float64 -/

/-- An IEEE 754 binary64 value.  `fin neg n` is the finite value `(-1)^neg * n * 2^(-1074)`. -/
inductive F64 where
  | nan : F64
  | inf (neg : Bool) : F64
  | fin (neg : Bool) (n : Nat) : F64
  deriving DecidableEq, Repr

namespace F64

/-- Number of binary digits of `n`, by repeated halving (`fuel` bounds the number of steps). -/
def bitLenAux : Nat → Nat → Nat
  | 0, _ => 0
  | fuel + 1, n => if n = 0 then 0 else bitLenAux fuel (n / 2) + 1

/-- Number of binary digits of `n`: `bitLen 0 = 0`, and `2^(bitLen n - 1) ≤ n < 2^(bitLen n)`
for `n > 0`. -/
def bitLen (n : Nat) : Nat := bitLenAux n n

/-- Round a non-negative exact value (in units of `2^(-1074)`) to the nearest value with a
53-bit significand, ties to even; `none` when the rounded value is `2^1024` or more. -/
def roundNat (n : Nat) : Option Nat :=
  let shift := bitLen n - 53
  let q := n / 2 ^ shift
  let r := n % 2 ^ shift
  let up := decide (2 ^ shift < 2 * r) || (decide (2 * r = 2 ^ shift) && decide (q % 2 = 1))
  let n' := (if up then q + 1 else q) * 2 ^ shift
  if n' < 2 ^ 2098 then some n' else none

/-- A value is well formed when it is a binary64 value: a finite one is its own rounding. -/
def WF : F64 → Bool
  | nan => true
  | inf _ => true
  | fin _ n => decide (roundNat n = some n)

/-- Positive zero, the value of the Go constants `0` and `0.0`. -/
def zero : F64 := fin false 0

/-- The value of a small non-negative integer constant `k` (exact for `k < 2^53`). -/
def ofNat (k : Nat) : F64 := fin false (k * 2 ^ 1074)

/-- The value of a small negative integer constant `-k`. -/
def ofNegNat (k : Nat) : F64 := fin true (k * 2 ^ 1074)

/-- The exact value of a finite float in units of `2^(-1074)`. -/
def sval (neg : Bool) (n : Nat) : Int := if neg then -(n : Int) else (n : Int)

/-- Go `x < y` on float64: false whenever an operand is NaN. -/
def lt : F64 → F64 → Bool
  | nan, _ => false
  | _, nan => false
  | inf a, inf b => a && !b
  | inf a, fin _ _ => a
  | fin _ _, inf b => !b
  | fin s n, fin t k => decide (sval s n < sval t k)

/-- Go `x <= y` on float64: false whenever an operand is NaN. -/
def le : F64 → F64 → Bool
  | nan, _ => false
  | _, nan => false
  | inf a, inf b => a || !b
  | inf a, fin _ _ => a
  | fin _ _, inf b => !b
  | fin s n, fin t k => decide (sval s n ≤ sval t k)

/-- Go `x > y`. -/
def gt (x y : F64) : Bool := lt y x

/-- Go `x >= y`. -/
def ge (x y : F64) : Bool := le y x

/-- Round an exact non-zero value, in units of `2^(-1074)`, to binary64. -/
def ofInt (z : Int) : F64 :=
  match roundNat z.natAbs with
  | some n => fin (decide (z < 0)) n
  | none => inf (decide (z < 0))

/-- Go `x + y` on float64. -/
def add : F64 → F64 → F64
  | nan, _ => nan
  | _, nan => nan
  | inf a, inf b => if a = b then inf a else nan
  | inf a, fin _ _ => inf a
  | fin _ _, inf b => inf b
  | fin s n, fin t k =>
    let z := sval s n + sval t k
    if z = 0 then fin (s && t) 0 else ofInt z

/-- Go unary `-x`. -/
def neg : F64 → F64
  | nan => nan
  | inf a => inf (!a)
  | fin s n => fin (!s) n

/-- Go `x - y` on float64. -/
def sub (x y : F64) : F64 := add x (neg y)

/-- Neither NaN nor an infinity. -/
def isFinite : F64 → Bool
  | fin _ _ => true
  | _ => false

/-- The value is NaN. -/
def isNaN : F64 → Bool
  | nan => true
  | _ => false

end F64

/-! ## The ledger -/

deriving instance DecidableEq for Except

/-- Go `type Account struct { AccountNumber string; Balance float64 }`. -/
structure Account where
  AccountNumber : String
  Balance : F64
  deriving DecidableEq, Repr

/-- Go `type Bank struct { Accounts map[string]*Account }`: the map sends a key to the
account stored under it, or to `none` when the key is absent. -/
structure Bank where
  Accounts : String → Option Account

/-- Go `b.Accounts[accountNumber] = account`: the map with one entry written. -/
def Bank.store (b : Bank) (accountNumber : String) (account : Account) : Bank :=
  { Accounts := fun k => if k = accountNumber then some account else b.Accounts k }

/-- Go `NewBank`: a ledger with an empty map. -/
def NewBank : Bank := { Accounts := fun _ => none }

/-- Go `(*Bank).CreateAccount`: the returned account (or error message) and the ledger after
the call.  The returned `*Account` is given as the account it points to at the return. -/
def CreateAccount (b : Bank) (accountNumber : String) : Except String Account × Bank :=
  match b.Accounts accountNumber with
  | some _ => (.error "account already exists", b)
  | none =>
    let account : Account := { AccountNumber := accountNumber, Balance := F64.zero }
    (.ok account, b.store accountNumber account)

/-- Go `(*Bank).Deposit`: the returned error (or success) and the ledger after the call.
`account.Balance += amount` writes through the pointer stored under `accountNumber`. -/
def Deposit (b : Bank) (accountNumber : String) (amount : F64) : Except String Unit × Bank :=
  match b.Accounts accountNumber with
  | none => (.error "account not found", b)
  | some account =>
    if F64.le amount F64.zero then
      (.error "deposit amount must be positive", b)
    else
      (.ok (), b.store accountNumber { account with Balance := F64.add account.Balance amount })

/-- Go `(*Bank).Withdraw`: the returned error (or success) and the ledger after the call. -/
def Withdraw (b : Bank) (accountNumber : String) (amount : F64) : Except String Unit × Bank :=
  match b.Accounts accountNumber with
  | none => (.error "account not found", b)
  | some account =>
    if F64.le amount F64.zero then
      (.error "withdraw amount must be positive", b)
    else if F64.gt amount account.Balance then
      (.error "insufficient funds", b)
    else
      (.ok (), b.store accountNumber { account with Balance := F64.sub account.Balance amount })

/-- Go `(*Bank).GetBalance`: the returned balance (or error message) and the ledger after the
call, which the method never writes. -/
def GetBalance (b : Bank) (accountNumber : String) : Except String F64 × Bank :=
  match b.Accounts accountNumber with
  | none => (.error "account not found", b)
  | some account => (.ok account.Balance, b)

/-- One call of a ledger method with its arguments. -/
inductive Op where
  | create (accountNumber : String) : Op
  | deposit (accountNumber : String) (amount : F64) : Op
  | withdraw (accountNumber : String) (amount : F64) : Op
  | getBalance (accountNumber : String) : Op

/-- The ledger after one call, whatever the call returned. -/
def step (b : Bank) : Op → Bank
  | .create n => (CreateAccount b n).2
  | .deposit n a => (Deposit b n a).2
  | .withdraw n a => (Withdraw b n a).2
  | .getBalance n => (GetBalance b n).2

/-- The ledger after a sequence of calls, first call first. -/
def run (b : Bank) (ops : List Op) : Bank := ops.foldl step b

/-- A ledger state is reachable when some finite sequence of calls leads to it from
`NewBank`. -/
def Reachable (b : Bank) : Prop := ∃ ops : List Op, run NewBank ops = b

/-- The amount passed to a call is not NaN and, for `Withdraw`, not +Inf; calls without an
amount qualify. -/
def Op.safeAmount : Op → Bool
  | .create _ => true
  | .deposit _ a => !a.isNaN
  | .withdraw _ a => !a.isNaN && decide (a ≠ F64.inf false)
  | .getBalance _ => true

/-- The ledger in which account "A1" holds 100.0. -/
def ledgerA1 : Bank := run NewBank [.create "A1", .deposit "A1" (F64.ofNat 100)]

/-- The ledger in which account "A1" holds +Inf, after a deposit of +Inf. -/
def ledgerInf : Bank := run NewBank [.create "A1", .deposit "A1" (F64.inf false)]

/-- The ledger reached by creating "A1", depositing +Inf and withdrawing +Inf. -/
def ledgerNaN : Bank :=
  run NewBank [.create "A1", .deposit "A1" (F64.inf false), .withdraw "A1" (F64.inf false)]

/-- Every account of the ledger has a balance `>= 0`. -/
def NoOverdraft (b : Bank) : Prop :=
  ∀ k acc, b.Accounts k = some acc → F64.ge acc.Balance F64.zero = true

/-- Every key of the ledger maps to an account that carries that key as its number. -/
def KeysMatch (b : Bank) : Prop :=
  ∀ k acc, b.Accounts k = some acc → acc.AccountNumber = k

/-- The scenario ledger after `CreateAccount("A1")` on a new bank. -/
def scenario1 : Bank := (CreateAccount NewBank "A1").2

/-- The scenario ledger after the deposit of 100.0. -/
def scenario2 : Bank := (Deposit scenario1 "A1" (F64.ofNat 100)).2

/-- The scenario ledger after the withdrawal of 30.0. -/
def scenario3 : Bank := (Withdraw scenario2 "A1" (F64.ofNat 30)).2

/-- The scenario ledger after the refused withdrawal of 1000.0. -/
def scenario4 : Bank := (Withdraw scenario3 "A1" (F64.ofNat 1000)).2

/-! ## The ledger as the Go runtime sees it

The same four methods over a map that may be the nil map and whose entries may be nil
pointers, with the two run-time panics the methods can raise made explicit: assignment to an
entry of a nil map, and dereference of a nil `*Account`. -/

/-- What a call does: it returns a value, or the goroutine panics. -/
inductive Outcome (α : Type) where
  | returned (r : α) : Outcome α
  | panicked : Outcome α
  deriving DecidableEq, Repr

namespace Raw

/-- Go `Bank` with a map that is nil (`none`) or allocated, each present key holding a nil
pointer (`none`) or a pointer to an account. -/
structure Bank where
  Accounts : Option (String → Option (Option Account))

/-- Go `account, exists := b.Accounts[accountNumber]`; reading the nil map finds nothing. -/
def Bank.lookup (b : Bank) (accountNumber : String) : Option (Option Account) :=
  match b.Accounts with
  | none => none
  | some m => m accountNumber

/-- Go `NewBank`: the map is allocated with `make` and empty. -/
def NewBank : Bank := { Accounts := some (fun _ => none) }

/-- Go `(*Bank).CreateAccount`; the write `b.Accounts[accountNumber] = account` panics on the
nil map. -/
def CreateAccount (b : Bank) (accountNumber : String) :
    Outcome (Except String Account) × Bank :=
  match b.lookup accountNumber with
  | some _ => (.returned (.error "account already exists"), b)
  | none =>
    let account : Account := { AccountNumber := accountNumber, Balance := F64.zero }
    match b.Accounts with
    | none => (.panicked, b)
    | some m =>
      (.returned (.ok account),
        { Accounts := some (fun k => if k = accountNumber then some (some account) else m k) })

/-- Go `(*Bank).Deposit`; `account.Balance += amount` panics on a nil pointer. -/
def Deposit (b : Bank) (accountNumber : String) (amount : F64) :
    Outcome (Except String Unit) × Bank :=
  match b.lookup accountNumber with
  | none => (.returned (.error "account not found"), b)
  | some ptr =>
    if F64.le amount F64.zero then
      (.returned (.error "deposit amount must be positive"), b)
    else
      match ptr, b.Accounts with
      | some account, some m =>
        (.returned (.ok ()),
          { Accounts := some (fun k =>
              if k = accountNumber then
                some (some { account with Balance := F64.add account.Balance amount })
              else m k) })
      | _, _ => (.panicked, b)

/-- Go `(*Bank).Withdraw`; `amount > account.Balance` panics on a nil pointer. -/
def Withdraw (b : Bank) (accountNumber : String) (amount : F64) :
    Outcome (Except String Unit) × Bank :=
  match b.lookup accountNumber with
  | none => (.returned (.error "account not found"), b)
  | some ptr =>
    if F64.le amount F64.zero then
      (.returned (.error "withdraw amount must be positive"), b)
    else
      match ptr, b.Accounts with
      | some account, some m =>
        if F64.gt amount account.Balance then
          (.returned (.error "insufficient funds"), b)
        else
          (.returned (.ok ()),
            { Accounts := some (fun k =>
                if k = accountNumber then
                  some (some { account with Balance := F64.sub account.Balance amount })
                else m k) })
      | _, _ => (.panicked, b)

/-- Go `(*Bank).GetBalance`; `account.Balance` panics on a nil pointer. -/
def GetBalance (b : Bank) (accountNumber : String) : Outcome (Except String F64) × Bank :=
  match b.lookup accountNumber with
  | none => (.returned (.error "account not found"), b)
  | some none => (.panicked, b)
  | some (some account) => (.returned (.ok account.Balance), b)

/-- The ledger after one call, whatever the call did. -/
def step (b : Bank) : Op → Bank
  | .create n => (CreateAccount b n).2
  | .deposit n a => (Deposit b n a).2
  | .withdraw n a => (Withdraw b n a).2
  | .getBalance n => (GetBalance b n).2

/-- The ledger after a sequence of calls, first call first. -/
def run (b : Bank) (ops : List Op) : Bank := ops.foldl step b

/-- Reachable from `NewBank` by a finite sequence of calls. -/
def Reachable (b : Bank) : Prop := ∃ ops : List Op, run NewBank ops = b

/-- The run-time view of a ledger of the model above: allocated map, no nil pointer. -/
def ofBank (b : BankLedger.Bank) : Bank :=
  { Accounts := some (fun k => (b.Accounts k).map some) }

end Raw

/-! ## Exact values and unrounded sums -/

/-- The exact value of a finite float in units of `2^(-1074)`; `none` for NaN and ±Inf. -/
def F64.toInt? : F64 → Option Int
  | .fin s n => some (F64.sval s n)
  | _ => none

/-- The finite float with the exact value `z` (in units of `2^(-1074)`), zero being +0. -/
def F64.ofExact (z : Int) : F64 := .fin (decide (z < 0)) z.natAbs

/-- The float64 sum `x + y` is not rounded: both operands are finite and their exact sum is
a binary64 value. -/
def F64.addExact : F64 → F64 → Bool
  | .fin s n, .fin t k =>
    decide (F64.roundNat (F64.sval s n + F64.sval t k).natAbs
      = some (F64.sval s n + F64.sval t k).natAbs)
  | _, _ => false

/-- The ledger in which account "A1" holds `2^53`, after one deposit. -/
def ledgerBig : Bank := run NewBank [.create "A1", .deposit "A1" (F64.ofNat (2 ^ 53))]

/-! ## Successful deposits and withdrawals of a run -/

/-- What a successful call does to the balance of an account: credit or debit an amount. -/
inductive Change where
  | credit (a : F64) : Change
  | debit (a : F64) : Change
  deriving DecidableEq, Repr

/-- The change that the call `op`, made on ledger `b`, applies to account `n`: a successful
`Deposit(n, a)` credits `a`, a successful `Withdraw(n, a)` debits `a`; failed calls, calls
on other accounts and the other two methods apply none. -/
def change (b : Bank) (n : String) : Op → Option Change
  | .deposit m a => if m = n ∧ (Deposit b m a).1 = .ok () then some (.credit a) else none
  | .withdraw m a => if m = n ∧ (Withdraw b m a).1 = .ok () then some (.debit a) else none
  | .create _ => none
  | .getBalance _ => none

/-- The changes applied to account `n` along a sequence of calls from ledger `b`, in call
order. -/
def changes (b : Bank) (n : String) : List Op → List Change
  | [] => []
  | op :: rest => (change b n op).toList ++ changes (step b op) n rest

/-- The balance after a change, in float64 arithmetic. -/
def Change.apply (x : F64) : Change → F64
  | .credit a => F64.add x a
  | .debit a => F64.sub x a

/-- The change is applied to the balance `x` without rounding. -/
def Change.exact (x : F64) : Change → Bool
  | .credit a => F64.addExact x a
  | .debit a => F64.addExact x (F64.neg a)

/-- No change of the list is rounded when the list is applied to `x` in order. -/
def exactAll (x : F64) : List Change → Bool
  | [] => true
  | c :: cs => c.exact x && exactAll (c.apply x) cs

/-- Exact sum of the credited amounts, in units of `2^(-1074)` (finite amounts only). -/
def depositTotal : List Change → Int
  | [] => 0
  | .credit a :: cs => (a.toInt?).getD 0 + depositTotal cs
  | .debit _ :: cs => depositTotal cs

/-- Exact sum of the debited amounts, in units of `2^(-1074)` (finite amounts only). -/
def withdrawTotal : List Change → Int
  | [] => 0
  | .credit _ :: cs => withdrawTotal cs
  | .debit a :: cs => (a.toInt?).getD 0 + withdrawTotal cs

/-- Float64 sum of the credited amounts, accumulated from 0.0 in call order. -/
def depositSum (cs : List Change) : F64 :=
  cs.foldl (fun s c => match c with
    | .credit a => F64.add s a
    | .debit _ => s) F64.zero

/-- Float64 sum of the debited amounts, accumulated from 0.0 in call order. -/
def withdrawSum (cs : List Change) : F64 :=
  cs.foldl (fun s c => match c with
    | .credit _ => s
    | .debit a => F64.add s a) F64.zero

/-- The balance stored under `n`, or 0.0 when `n` is not a key (the balance a later
`CreateAccount(n)` starts from). -/
def balanceOrZero (b : Bank) (n : String) : F64 :=
  match b.Accounts n with
  | some acc => acc.Balance
  | none => F64.zero

/-- A run on which sums get rounded: create "A1", deposit `2^53`, withdraw 1, deposit 1,
deposit 1. -/
def roundedRun : List Op :=
  [.create "A1", .deposit "A1" (F64.ofNat (2 ^ 53)), .withdraw "A1" (F64.ofNat 1),
    .deposit "A1" (F64.ofNat 1), .deposit "A1" (F64.ofNat 1)]

/-- The ledger that holds only "A1", with balance negative zero. -/
def ledgerNegZero : Bank :=
  NewBank.store "A1" { AccountNumber := "A1", Balance := F64.fin true 0 }

/-! ## Checks of the float64 model on known values -/

/-- The constants used below are binary64 values. -/
theorem F64.WF_constants :
    F64.WF F64.zero = true ∧ F64.WF (F64.ofNat 30) = true ∧ F64.WF (F64.ofNat 70) = true ∧
    F64.WF (F64.ofNat 100) = true ∧ F64.WF (F64.ofNat 1000) = true ∧
    F64.WF (F64.ofNegNat 5) = true := by
  decide!

/-- Sums round to nearest, ties to even: `2^53 + 1 = 2^53` and `(2^53 + 2) + 1 = 2^53 + 4`;
the largest finite value added to itself overflows to +Inf; and `Inf - Inf` is NaN. -/
theorem F64.add_rounding_checks :
    F64.add (F64.ofNat (2 ^ 53)) (F64.ofNat 1) = F64.ofNat (2 ^ 53) ∧
    F64.add (F64.ofNat (2 ^ 53 + 2)) (F64.ofNat 1) = F64.ofNat (2 ^ 53 + 4) ∧
    F64.add (F64.fin false ((2 ^ 53 - 1) * 2 ^ 2045)) (F64.fin false ((2 ^ 53 - 1) * 2 ^ 2045))
      = F64.inf false ∧
    F64.sub (F64.inf false) (F64.inf false) = F64.nan ∧
    F64.sub (F64.ofNat 100) (F64.ofNat 30) = F64.ofNat 70 := by
  decide!

/-! ## Lemmas on float64 comparisons and arithmetic -/

theorem F64.sval_zero (s : Bool) : F64.sval s 0 = 0 := by
  cases s <;> simp [F64.sval]

theorem F64.sval_not (s : Bool) (n : Nat) : F64.sval (!s) n = -F64.sval s n := by
  cases s <;> simp [F64.sval]

/-- A positive amount is not `<= 0`. -/
theorem F64.le_zero_of_gt_zero (a : F64) (h : F64.gt a F64.zero = true) :
    F64.le a F64.zero = false := by
  cases a with
  | nan => simp [F64.gt, F64.lt, F64.zero] at h
  | inf s => cases s <;> simp_all [F64.gt, F64.lt, F64.le, F64.zero]
  | fin s n =>
    simp only [F64.gt, F64.lt, F64.zero, F64.le, decide_eq_true_eq, decide_eq_false_iff_not,
      F64.sval_zero] at *
    omega

/-- The rounding of a non-zero exact value keeps the sign of that value. -/
theorem F64.ge_zero_ofInt (z : Int) (hz : 0 < z) : F64.ge (F64.ofInt z) F64.zero = true := by
  have hneg : decide (z < 0) = false := by simp; omega
  unfold F64.ofInt
  cases F64.roundNat z.natAbs with
  | none => simp [hneg, F64.ge, F64.le, F64.zero]
  | some n => simp [hneg, F64.ge, F64.le, F64.zero, F64.sval]

/-- Adding an accepted amount other than NaN to a balance that is `>= 0` gives a balance
`>= 0`. -/
theorem F64.ge_zero_add (x a : F64) (hx : F64.ge x F64.zero = true) (ha : a.isNaN = false)
    (hpos : F64.le a F64.zero = false) : F64.ge (F64.add x a) F64.zero = true := by
  cases a with
  | nan => simp [F64.isNaN] at ha
  | inf t =>
    cases x with
    | nan => simp [F64.ge, F64.le, F64.zero] at hx
    | inf s => cases s <;> cases t <;> simp_all [F64.ge, F64.le, F64.zero, F64.add]
    | fin s n => cases t <;> simp_all [F64.ge, F64.le, F64.zero, F64.add]
  | fin t k =>
    cases x with
    | nan => simp [F64.ge, F64.le, F64.zero] at hx
    | inf s => cases s <;> simp_all [F64.ge, F64.le, F64.zero, F64.add]
    | fin s n =>
      simp only [F64.ge, F64.le, F64.zero, decide_eq_true_eq, decide_eq_false_iff_not,
        F64.sval_zero] at hx hpos
      have hz : 0 < F64.sval s n + F64.sval t k := by omega
      have hne : ¬ (F64.sval s n + F64.sval t k = 0) := by omega
      simp only [F64.add, hne, if_false]
      exact F64.ge_zero_ofInt _ hz

/-- Subtracting an accepted amount other than NaN and +Inf that does not exceed a balance
`>= 0` gives a balance `>= 0`. -/
theorem F64.ge_zero_sub (x a : F64) (hx : F64.ge x F64.zero = true) (ha : a.isNaN = false)
    (hinf : a ≠ F64.inf false) (hpos : F64.le a F64.zero = false)
    (hle : F64.gt a x = false) : F64.ge (F64.sub x a) F64.zero = true := by
  cases a with
  | nan => simp [F64.isNaN] at ha
  | inf t =>
    cases t with
    | false => exact absurd rfl hinf
    | true => simp [F64.le, F64.zero] at hpos
  | fin t k =>
    cases x with
    | nan => simp [F64.ge, F64.le, F64.zero] at hx
    | inf s => cases s <;> simp_all [F64.ge, F64.le, F64.zero, F64.add, F64.sub, F64.neg]
    | fin s n =>
      simp only [F64.ge, F64.gt, F64.lt, F64.le, F64.zero, decide_eq_true_eq,
        decide_eq_false_iff_not, F64.sval_zero] at hx hpos hle
      simp only [F64.sub, F64.neg, F64.add, F64.sval_not]
      by_cases hz : F64.sval s n + -F64.sval t k = 0
      · simp [hz, F64.ge, F64.le, F64.zero, F64.sval_zero]
      · simp only [hz, if_false]
        exact F64.ge_zero_ofInt _ (by omega)

/-- A finite positive value minus a value equal to it is positive zero. -/
theorem F64.sub_self_of_pos (x a : F64) (ha : a.isFinite = true)
    (hpos : F64.gt a F64.zero = true) (h1 : F64.le a x = true) (h2 : F64.le x a = true) :
    F64.sub x a = F64.zero := by
  cases a with
  | nan => simp [F64.isFinite] at ha
  | inf t => simp [F64.isFinite] at ha
  | fin t k =>
    cases x with
    | nan => simp [F64.le] at h1
    | inf s => cases s <;> simp_all [F64.le]
    | fin s n =>
      simp only [F64.gt, F64.lt, F64.le, F64.zero, decide_eq_true_eq, F64.sval_zero] at hpos h1 h2
      have hz : F64.sval s n + -F64.sval t k = 0 := by omega
      have hs : s = false := by
        cases s with
        | false => rfl
        | true => simp only [F64.sval, if_true] at h1 h2 hpos; cases t <;> simp_all <;> omega
      subst hs
      simp [F64.sub, F64.neg, F64.add, F64.sval_not, hz, F64.zero]

/-! ## Lemmas on the map -/

theorem Bank.store_same (b : Bank) (n : String) (acc : Account) :
    (b.store n acc).Accounts n = some acc := by
  simp [Bank.store]

theorem Bank.store_other (b : Bank) (n m : String) (acc : Account) (h : m ≠ n) :
    (b.store n acc).Accounts m = b.Accounts m := by
  simp [Bank.store, h]

/-! ## CreateAccount -/

/-- C1: for every ledger and every account number `n` that is not a key of it,
`CreateAccount(n)` succeeds, returns the account with number `n` and balance 0.0, and in the
resulting ledger `GetBalance(n)` succeeds with 0.0. -/
theorem CreateAccount_fresh (b : Bank) (n : String) (h : b.Accounts n = none) :
    (CreateAccount b n).1 = .ok { AccountNumber := n, Balance := F64.zero } ∧
    (GetBalance (CreateAccount b n).2 n).1 = .ok F64.zero := by
  simp [CreateAccount, GetBalance, h, Bank.store]

theorem CreateAccount_fresh_witness :
    NewBank.Accounts "A1" = none ∧
    (CreateAccount NewBank "A1").1 = .ok { AccountNumber := "A1", Balance := F64.zero } ∧
    (GetBalance (CreateAccount NewBank "A1").2 "A1").1 = .ok F64.zero :=
  ⟨rfl, CreateAccount_fresh NewBank "A1" rfl⟩

/-- C2: `CreateAccount(n)` fails with "account already exists" exactly when `n` is a key of
the ledger; the failing call leaves the ledger, hence the balance stored under `n`, as it
was; and a second `CreateAccount(n)` directly after a successful one fails and changes
nothing. -/
theorem CreateAccount_duplicate_iff (b : Bank) (n : String) :
    ((CreateAccount b n).1 = .error "account already exists" ↔ b.Accounts n ≠ none) ∧
    (∀ acc, b.Accounts n = some acc →
      (CreateAccount b n).2 = b ∧ (GetBalance (CreateAccount b n).2 n).1 = .ok acc.Balance) ∧
    (b.Accounts n = none →
      (CreateAccount (CreateAccount b n).2 n).1 = .error "account already exists" ∧
      (CreateAccount (CreateAccount b n).2 n).2 = (CreateAccount b n).2) := by
  refine ⟨?_, ?_, ?_⟩
  · cases h : b.Accounts n <;> simp [CreateAccount, h]
  · intro acc h
    simp [CreateAccount, GetBalance, h]
  · intro h
    simp [CreateAccount, h, Bank.store]

theorem CreateAccount_duplicate_iff_witness :
    ledgerA1.Accounts "A1" = some { AccountNumber := "A1", Balance := F64.ofNat 100 } ∧
    (CreateAccount ledgerA1 "A1").1 = .error "account already exists" ∧
    (CreateAccount ledgerA1 "A1").2 = ledgerA1 ∧
    (GetBalance (CreateAccount ledgerA1 "A1").2 "A1").1 = .ok (F64.ofNat 100) ∧
    (CreateAccount (CreateAccount NewBank "A1").2 "A1").1 = .error "account already exists" :=
  have h : ledgerA1.Accounts "A1" = some { AccountNumber := "A1", Balance := F64.ofNat 100 } := by
    decide!
  ⟨h, (CreateAccount_duplicate_iff ledgerA1 "A1").1.2 (by rw [h]; simp),
    ((CreateAccount_duplicate_iff ledgerA1 "A1").2.1 _ h).1,
    ((CreateAccount_duplicate_iff ledgerA1 "A1").2.1 _ h).2,
    ((CreateAccount_duplicate_iff NewBank "A1").2.2 rfl).1⟩

/-! ## Deposit -/

/-- C3: for every ledger, every existing account `n` with balance `b` and every amount
`a > 0`, `Deposit(n, a)` succeeds and afterwards `GetBalance(n)` returns `b + a`, the
float64 sum. -/
theorem Deposit_positive (b : Bank) (n : String) (acc : Account) (a : F64)
    (hn : b.Accounts n = some acc) (ha : F64.gt a F64.zero = true) :
    (Deposit b n a).1 = .ok () ∧
    (GetBalance (Deposit b n a).2 n).1 = .ok (F64.add acc.Balance a) := by
  simp [Deposit, GetBalance, hn, F64.le_zero_of_gt_zero a ha, Bank.store]

theorem Deposit_positive_witness :
    (Deposit ledgerA1 "A1" (F64.ofNat 30)).1 = .ok () ∧
    (GetBalance (Deposit ledgerA1 "A1" (F64.ofNat 30)).2 "A1").1 = .ok (F64.ofNat 130) :=
  have h := Deposit_positive ledgerA1 "A1" { AccountNumber := "A1", Balance := F64.ofNat 100 }
    (F64.ofNat 30) (by decide!) (by decide!)
  ⟨h.1, h.2.trans (by decide!)⟩

/-- C6: `Deposit` checks existence before the amount: it fails with "account not found" when
`n` is not a key, whatever the amount, and with "deposit amount must be positive" when `n`
exists and `a <= 0`. -/
theorem Deposit_check_order (b : Bank) (n : String) (a : F64) :
    (b.Accounts n = none → (Deposit b n a).1 = .error "account not found") ∧
    (∀ acc, b.Accounts n = some acc → F64.le a F64.zero = true →
      (Deposit b n a).1 = .error "deposit amount must be positive") := by
  refine ⟨?_, ?_⟩
  · intro h
    simp [Deposit, h]
  · intro acc h ha
    simp [Deposit, h, ha]

theorem Deposit_check_order_witness :
    (Deposit NewBank "A2" (F64.ofNegNat 5)).1 = .error "account not found" ∧
    (Deposit ledgerA1 "A1" F64.zero).1 = .error "deposit amount must be positive" ∧
    (Deposit ledgerA1 "A1" (F64.ofNegNat 5)).1 = .error "deposit amount must be positive" :=
  ⟨(Deposit_check_order NewBank "A2" (F64.ofNegNat 5)).1 rfl,
    (Deposit_check_order ledgerA1 "A1" F64.zero).2 _ (by decide! :
      ledgerA1.Accounts "A1" = some { AccountNumber := "A1", Balance := F64.ofNat 100 })
      (by decide!),
    (Deposit_check_order ledgerA1 "A1" (F64.ofNegNat 5)).2 _ (by decide! :
      ledgerA1.Accounts "A1" = some { AccountNumber := "A1", Balance := F64.ofNat 100 })
      (by decide!)⟩

/-! ## Withdraw -/

/-- C4 as stated fails: on the ledger whose account "A1" holds +Inf, the amount +Inf
satisfies `0 < a <= b` and equals the balance, `Withdraw` succeeds, and the balance left is
NaN, not 0. -/
theorem Withdraw_whole_balance_inf :
    (GetBalance ledgerInf "A1").1 = .ok (F64.inf false) ∧
    F64.gt (F64.inf false) F64.zero = true ∧
    F64.le (F64.inf false) (F64.inf false) = true ∧
    (Withdraw ledgerInf "A1" (F64.inf false)).1 = .ok () ∧
    (GetBalance (Withdraw ledgerInf "A1" (F64.inf false)).2 "A1").1 = .ok F64.nan ∧
    (GetBalance (Withdraw ledgerInf "A1" (F64.inf false)).2 "A1").1 ≠ .ok F64.zero := by
  decide

/-- C4, amended: for every ledger, every existing account `n` with balance `b` and every
amount `a` with `0 < a <= b`, `Withdraw(n, a)` succeeds and afterwards `GetBalance(n)`
returns `b - a`, the float64 difference; and when moreover `a` is finite and equal to the
balance (`b <= a` as well), the balance left is 0. -/
theorem Withdraw_within_balance (b : Bank) (n : String) (acc : Account) (a : F64)
    (hn : b.Accounts n = some acc) (ha : F64.gt a F64.zero = true)
    (hle : F64.le a acc.Balance = true) :
    (Withdraw b n a).1 = .ok () ∧
    (GetBalance (Withdraw b n a).2 n).1 = .ok (F64.sub acc.Balance a) ∧
    (a.isFinite = true → F64.le acc.Balance a = true →
      (GetBalance (Withdraw b n a).2 n).1 = .ok F64.zero) := by
  have hgt : F64.gt a acc.Balance = false := by
    cases a with
    | nan => simp [F64.le] at hle
    | inf s =>
      cases hb : acc.Balance with
      | nan => simp [hb, F64.le] at hle
      | inf t => cases s <;> cases t <;> simp_all [F64.le, F64.gt, F64.lt]
      | fin t k => cases s <;> simp_all [F64.le, F64.gt, F64.lt]
    | fin s m =>
      cases hb : acc.Balance with
      | nan => simp [hb, F64.le] at hle
      | inf t => cases t <;> simp_all [F64.le, F64.gt, F64.lt]
      | fin t k =>
        simp only [hb, F64.le, F64.gt, F64.lt, decide_eq_true_eq, decide_eq_false_iff_not] at *
        omega
  have hres : (Withdraw b n a).1 = .ok () ∧
      (GetBalance (Withdraw b n a).2 n).1 = .ok (F64.sub acc.Balance a) := by
    simp [Withdraw, GetBalance, hn, F64.le_zero_of_gt_zero a ha, hgt, Bank.store]
  refine ⟨hres.1, hres.2, ?_⟩
  intro hfin hge
  rw [hres.2, F64.sub_self_of_pos acc.Balance a hfin ha hle hge]

theorem Withdraw_within_balance_witness :
    (Withdraw ledgerA1 "A1" (F64.ofNat 30)).1 = .ok () ∧
    (GetBalance (Withdraw ledgerA1 "A1" (F64.ofNat 30)).2 "A1").1 = .ok (F64.ofNat 70) ∧
    (Withdraw ledgerA1 "A1" (F64.ofNat 100)).1 = .ok () ∧
    (GetBalance (Withdraw ledgerA1 "A1" (F64.ofNat 100)).2 "A1").1 = .ok F64.zero :=
  have h30 := Withdraw_within_balance ledgerA1 "A1"
    { AccountNumber := "A1", Balance := F64.ofNat 100 } (F64.ofNat 30)
    (by decide!) (by decide!) (by decide!)
  have h100 := Withdraw_within_balance ledgerA1 "A1"
    { AccountNumber := "A1", Balance := F64.ofNat 100 } (F64.ofNat 100)
    (by decide!) (by decide!) (by decide!)
  ⟨h30.1, h30.2.1.trans (by decide!), h100.1, h100.2.2 rfl (by decide!)⟩

/-- C5: `Withdraw` checks existence, then positivity of the amount, then sufficiency of the
funds: it fails with "account not found" when `n` is not a key, whatever the amount; with
"withdraw amount must be positive" when `n` exists and `a <= 0`; and with "insufficient
funds" when `n` exists, `a > 0` and `a` exceeds the balance. -/
theorem Withdraw_check_order (b : Bank) (n : String) (a : F64) :
    (b.Accounts n = none → (Withdraw b n a).1 = .error "account not found") ∧
    (∀ acc, b.Accounts n = some acc → F64.le a F64.zero = true →
      (Withdraw b n a).1 = .error "withdraw amount must be positive") ∧
    (∀ acc, b.Accounts n = some acc → F64.gt a F64.zero = true →
      F64.gt a acc.Balance = true → (Withdraw b n a).1 = .error "insufficient funds") := by
  refine ⟨?_, ?_, ?_⟩
  · intro h
    simp [Withdraw, h]
  · intro acc h ha
    simp [Withdraw, h, ha]
  · intro acc h ha hgt
    simp [Withdraw, h, F64.le_zero_of_gt_zero a ha, hgt]

theorem Withdraw_check_order_witness :
    (Withdraw NewBank "A2" (F64.ofNegNat 5)).1 = .error "account not found" ∧
    (Withdraw ledgerA1 "A1" (F64.ofNegNat 5)).1 = .error "withdraw amount must be positive" ∧
    (Withdraw ledgerA1 "A1" (F64.ofNat 1000)).1 = .error "insufficient funds" :=
  ⟨(Withdraw_check_order NewBank "A2" (F64.ofNegNat 5)).1 rfl,
    (Withdraw_check_order ledgerA1 "A1" (F64.ofNegNat 5)).2.1 _ (by decide! :
      ledgerA1.Accounts "A1" = some { AccountNumber := "A1", Balance := F64.ofNat 100 })
      (by decide!),
    (Withdraw_check_order ledgerA1 "A1" (F64.ofNat 1000)).2.2 _ (by decide! :
      ledgerA1.Accounts "A1" = some { AccountNumber := "A1", Balance := F64.ofNat 100 })
      (by decide!) (by decide!)⟩

/-! ## GetBalance -/

/-- C7: `GetBalance(n)` fails with "account not found" exactly when `n` is not a key of the
ledger, returns the stored balance when `n` exists, and in both cases leaves the ledger as
it was. -/
theorem GetBalance_spec (b : Bank) (n : String) :
    ((GetBalance b n).1 = .error "account not found" ↔ b.Accounts n = none) ∧
    (∀ acc, b.Accounts n = some acc → (GetBalance b n).1 = .ok acc.Balance) ∧
    (GetBalance b n).2 = b := by
  refine ⟨?_, ?_, ?_⟩
  · cases h : b.Accounts n <;> simp [GetBalance, h]
  · intro acc h
    simp [GetBalance, h]
  · cases h : b.Accounts n <;> simp [GetBalance, h]

theorem GetBalance_spec_witness :
    (GetBalance ledgerA1 "A2").1 = .error "account not found" ∧
    (GetBalance ledgerA1 "A1").1 = .ok (F64.ofNat 100) ∧
    (GetBalance ledgerA1 "A1").2 = ledgerA1 :=
  ⟨(GetBalance_spec ledgerA1 "A2").1.2 (by decide!),
    (GetBalance_spec ledgerA1 "A1").2.1 { AccountNumber := "A1", Balance := F64.ofNat 100 }
      (by decide!),
    (GetBalance_spec ledgerA1 "A1").2.2⟩

/-! ## Invariants of reachable ledgers -/

theorem NoOverdraft_store (b : Bank) (n : String) (acc : Account) (hb : NoOverdraft b)
    (hacc : F64.ge acc.Balance F64.zero = true) : NoOverdraft (b.store n acc) := by
  intro k acc1 hk
  by_cases hkn : k = n
  · subst hkn
    rw [Bank.store_same] at hk
    cases hk
    exact hacc
  · rw [Bank.store_other b n k acc hkn] at hk
    exact hb k acc1 hk

/-- A call whose amount is not NaN and, for `Withdraw`, not +Inf keeps every balance
`>= 0`. -/
theorem NoOverdraft_step (b : Bank) (op : Op) (hb : NoOverdraft b)
    (hop : op.safeAmount = true) : NoOverdraft (step b op) := by
  cases op with
  | create n =>
    cases h : b.Accounts n with
    | some acc =>
      have hs : step b (.create n) = b := by simp [step, CreateAccount, h]
      rw [hs]; exact hb
    | none =>
      have hs : step b (.create n) =
          b.store n { AccountNumber := n, Balance := F64.zero } := by
        simp [step, CreateAccount, h]
      rw [hs]; exact NoOverdraft_store b n _ hb (by simp [F64.ge, F64.le, F64.zero])
  | deposit n a =>
    cases h : b.Accounts n with
    | none =>
      have hs : step b (.deposit n a) = b := by simp [step, Deposit, h]
      rw [hs]; exact hb
    | some acc =>
      cases hle : F64.le a F64.zero with
      | true =>
        have hs : step b (.deposit n a) = b := by simp [step, Deposit, h, hle]
        rw [hs]; exact hb
      | false =>
        have hs : step b (.deposit n a) =
            b.store n { acc with Balance := F64.add acc.Balance a } := by
          simp [step, Deposit, h, hle]
        rw [hs]; exact NoOverdraft_store b n _ hb (F64.ge_zero_add acc.Balance a (hb n acc h)
          (by simpa [Op.safeAmount] using hop) hle)
  | withdraw n a =>
    cases h : b.Accounts n with
    | none =>
      have hs : step b (.withdraw n a) = b := by simp [step, Withdraw, h]
      rw [hs]; exact hb
    | some acc =>
      cases hle : F64.le a F64.zero with
      | true =>
        have hs : step b (.withdraw n a) = b := by simp [step, Withdraw, h, hle]
        rw [hs]; exact hb
      | false =>
        cases hgt : F64.gt a acc.Balance with
        | true =>
          have hs : step b (.withdraw n a) = b := by simp [step, Withdraw, h, hle, hgt]
          rw [hs]; exact hb
        | false =>
          have hs : step b (.withdraw n a) =
              b.store n { acc with Balance := F64.sub acc.Balance a } := by
            simp [step, Withdraw, h, hle, hgt]
          rw [hs]; exact NoOverdraft_store b n _ hb (F64.ge_zero_sub acc.Balance a (hb n acc h)
            (by simp [Op.safeAmount] at hop; exact hop.1)
            (by simp [Op.safeAmount] at hop; exact hop.2) hle hgt)
  | getBalance n =>
    have hs : step b (.getBalance n) = b := by
      cases h : b.Accounts n <;> simp [step, GetBalance, h]
    rw [hs]; exact hb

theorem NoOverdraft_run (ops : List Op) (b : Bank) (hb : NoOverdraft b)
    (hops : ∀ op ∈ ops, op.safeAmount = true) : NoOverdraft (run b ops) := by
  induction ops generalizing b with
  | nil => exact hb
  | cons op rest ih =>
    have hstep : NoOverdraft (step b op) :=
      NoOverdraft_step b op hb (hops op (List.mem_cons_self op rest))
    exact ih (step b op) hstep (fun o ho => hops o (List.mem_cons_of_mem op ho))

/-- C8 as stated fails: the ledger reached from `NewBank` by creating "A1", depositing +Inf
and withdrawing +Inf holds the balance NaN under "A1", and `NaN >= 0` is false. -/
theorem no_overdraft_fails_at_inf :
    Reachable ledgerNaN ∧
    ledgerNaN.Accounts "A1" = some { AccountNumber := "A1", Balance := F64.nan } ∧
    F64.ge F64.nan F64.zero = false ∧ ¬ NoOverdraft ledgerNaN :=
  ⟨⟨_, rfl⟩, by decide, by decide,
    fun h => absurd (h "A1" { AccountNumber := "A1", Balance := F64.nan } (by decide))
      (by decide)⟩

/-- C8, amended: in every ledger state reached from `NewBank` by a finite sequence of
`CreateAccount`, `Deposit`, `Withdraw` and `GetBalance` calls (successful or failing) in
which no amount is NaN and no `Withdraw` amount is +Inf, every account has a balance
`>= 0`. -/
theorem no_overdraft_safe_amounts (ops : List Op) (hops : ∀ op ∈ ops, op.safeAmount = true) :
    NoOverdraft (run NewBank ops) :=
  NoOverdraft_run ops NewBank (fun k acc hk => by simp [NewBank] at hk) hops

theorem no_overdraft_safe_amounts_witness :
    NoOverdraft (run NewBank [.create "A1", .deposit "A1" (F64.ofNat 100),
      .withdraw "A1" (F64.ofNat 30), .withdraw "A1" (F64.ofNat 1000),
      .deposit "A1" (F64.ofNegNat 5), .deposit "A1" (F64.inf true),
      .withdraw "A1" (F64.inf true), .deposit "A1" (F64.inf false),
      .withdraw "A1" (F64.ofNat 30), .getBalance "A1"]) ∧
    (GetBalance (run NewBank [.create "A1", .deposit "A1" (F64.ofNat 100),
      .withdraw "A1" (F64.ofNat 30), .withdraw "A1" (F64.ofNat 1000),
      .deposit "A1" (F64.ofNegNat 5), .deposit "A1" (F64.inf true),
      .withdraw "A1" (F64.inf true), .deposit "A1" (F64.inf false),
      .withdraw "A1" (F64.ofNat 30), .getBalance "A1"]) "A1").1 = .ok (F64.inf false) :=
  ⟨no_overdraft_safe_amounts _ (by decide), by decide!⟩

/-- C9: a call of `CreateAccount`, `Deposit`, `Withdraw` or `GetBalance` that returns an
error leaves the ledger exactly as it was. -/
theorem failure_leaves_ledger (b : Bank) (n : String) (a : F64) (e : String) :
    ((CreateAccount b n).1 = .error e → (CreateAccount b n).2 = b) ∧
    ((Deposit b n a).1 = .error e → (Deposit b n a).2 = b) ∧
    ((Withdraw b n a).1 = .error e → (Withdraw b n a).2 = b) ∧
    ((GetBalance b n).1 = .error e → (GetBalance b n).2 = b) := by
  refine ⟨?_, ?_, ?_, ?_⟩
  · cases h : b.Accounts n <;> simp [CreateAccount, h]
  · cases h : b.Accounts n with
    | none => simp [Deposit, h]
    | some acc => cases hle : F64.le a F64.zero <;> simp [Deposit, h, hle]
  · cases h : b.Accounts n with
    | none => simp [Withdraw, h]
    | some acc =>
      cases hle : F64.le a F64.zero <;> cases hgt : F64.gt a acc.Balance <;>
        simp [Withdraw, h, hle, hgt]
  · cases h : b.Accounts n <;> simp [GetBalance, h]

theorem failure_leaves_ledger_witness :
    (Withdraw ledgerA1 "A1" (F64.ofNat 1000)).1 = .error "insufficient funds" ∧
    (Withdraw ledgerA1 "A1" (F64.ofNat 1000)).2 = ledgerA1 ∧
    (Deposit ledgerA1 "A1" F64.zero).1 = .error "deposit amount must be positive" ∧
    (Deposit ledgerA1 "A1" F64.zero).2 = ledgerA1 ∧
    (CreateAccount ledgerA1 "A1").2 = ledgerA1 ∧
    (GetBalance ledgerA1 "A2").2 = ledgerA1 :=
  have hw : (Withdraw ledgerA1 "A1" (F64.ofNat 1000)).1 = .error "insufficient funds" := by
    decide!
  have hd : (Deposit ledgerA1 "A1" F64.zero).1 = .error "deposit amount must be positive" := by
    decide!
  ⟨hw, (failure_leaves_ledger ledgerA1 "A1" (F64.ofNat 1000) _).2.2.1 hw,
    hd, (failure_leaves_ledger ledgerA1 "A1" F64.zero _).2.1 hd,
    (failure_leaves_ledger ledgerA1 "A1" F64.zero "account already exists").1 (by decide!),
    (failure_leaves_ledger ledgerA1 "A2" F64.zero "account not found").2.2.2 (by decide!)⟩

theorem KeysMatch_store (b : Bank) (n : String) (acc : Account) (hb : KeysMatch b)
    (hacc : acc.AccountNumber = n) : KeysMatch (b.store n acc) := by
  intro k acc1 hk
  by_cases hkn : k = n
  · subst hkn
    rw [Bank.store_same] at hk
    cases hk
    exact hacc
  · rw [Bank.store_other b n k acc hkn] at hk
    exact hb k acc1 hk

/-- Every call keeps each key mapped to an account carrying that key. -/
theorem KeysMatch_step (b : Bank) (op : Op) (hb : KeysMatch b) : KeysMatch (step b op) := by
  cases op with
  | create n =>
    cases h : b.Accounts n with
    | some acc =>
      have hs : step b (.create n) = b := by simp [step, CreateAccount, h]
      rw [hs]; exact hb
    | none =>
      have hs : step b (.create n) =
          b.store n { AccountNumber := n, Balance := F64.zero } := by
        simp [step, CreateAccount, h]
      rw [hs]; exact KeysMatch_store b n _ hb rfl
  | deposit n a =>
    cases h : b.Accounts n with
    | none =>
      have hs : step b (.deposit n a) = b := by simp [step, Deposit, h]
      rw [hs]; exact hb
    | some acc =>
      cases hle : F64.le a F64.zero with
      | true =>
        have hs : step b (.deposit n a) = b := by simp [step, Deposit, h, hle]
        rw [hs]; exact hb
      | false =>
        have hs : step b (.deposit n a) =
            b.store n { acc with Balance := F64.add acc.Balance a } := by
          simp [step, Deposit, h, hle]
        rw [hs]; exact KeysMatch_store b n _ hb (hb n acc h)
  | withdraw n a =>
    cases h : b.Accounts n with
    | none =>
      have hs : step b (.withdraw n a) = b := by simp [step, Withdraw, h]
      rw [hs]; exact hb
    | some acc =>
      cases hle : F64.le a F64.zero with
      | true =>
        have hs : step b (.withdraw n a) = b := by simp [step, Withdraw, h, hle]
        rw [hs]; exact hb
      | false =>
        cases hgt : F64.gt a acc.Balance with
        | true =>
          have hs : step b (.withdraw n a) = b := by simp [step, Withdraw, h, hle, hgt]
          rw [hs]; exact hb
        | false =>
          have hs : step b (.withdraw n a) =
              b.store n { acc with Balance := F64.sub acc.Balance a } := by
            simp [step, Withdraw, h, hle, hgt]
          rw [hs]; exact KeysMatch_store b n _ hb (hb n acc h)
  | getBalance n =>
    have hs : step b (.getBalance n) = b := by
      cases h : b.Accounts n <;> simp [step, GetBalance, h]
    rw [hs]; exact hb

theorem KeysMatch_run (ops : List Op) (b : Bank) (hb : KeysMatch b) :
    KeysMatch (run b ops) := by
  induction ops generalizing b with
  | nil => exact hb
  | cons op rest ih => exact ih (step b op) (KeysMatch_step b op hb)

/-- C10: in every ledger state reachable from `NewBank` by the four operations, every key
`k` of the map holds one account, and the number recorded in that account is `k`. -/
theorem keys_match_reachable (b : Bank) (hb : Reachable b) (k : String) (acc : Account)
    (hk : b.Accounts k = some acc) : acc.AccountNumber = k := by
  obtain ⟨ops, rfl⟩ := hb
  exact KeysMatch_run ops NewBank (fun k acc hk => by simp [NewBank] at hk) k acc hk

theorem keys_match_reachable_witness :
    Reachable ledgerA1 ∧
    ledgerA1.Accounts "A1" = some { AccountNumber := "A1", Balance := F64.ofNat 100 } ∧
    (Account.mk "A1" (F64.ofNat 100)).AccountNumber = "A1" :=
  have h : ledgerA1.Accounts "A1" = some { AccountNumber := "A1", Balance := F64.ofNat 100 } := by
    decide!
  ⟨⟨_, rfl⟩, h, keys_match_reachable ledgerA1 ⟨_, rfl⟩ "A1" _ h⟩

/-! ## The methods, case by case -/

theorem CreateAccount_some (b : Bank) (n : String) (acc : Account)
    (h : b.Accounts n = some acc) :
    CreateAccount b n = (.error "account already exists", b) := by
  simp [CreateAccount, h]

theorem CreateAccount_none (b : Bank) (n : String) (h : b.Accounts n = none) :
    CreateAccount b n = (.ok { AccountNumber := n, Balance := F64.zero },
      b.store n { AccountNumber := n, Balance := F64.zero }) := by
  simp [CreateAccount, h]

theorem Deposit_none (b : Bank) (n : String) (a : F64) (h : b.Accounts n = none) :
    Deposit b n a = (.error "account not found", b) := by
  simp [Deposit, h]

theorem Deposit_invalid (b : Bank) (n : String) (a : F64) (acc : Account)
    (h : b.Accounts n = some acc) (hle : F64.le a F64.zero = true) :
    Deposit b n a = (.error "deposit amount must be positive", b) := by
  simp [Deposit, h, hle]

theorem Deposit_ok (b : Bank) (n : String) (a : F64) (acc : Account)
    (h : b.Accounts n = some acc) (hle : F64.le a F64.zero = false) :
    Deposit b n a = (.ok (), b.store n { acc with Balance := F64.add acc.Balance a }) := by
  simp [Deposit, h, hle]

theorem Withdraw_none (b : Bank) (n : String) (a : F64) (h : b.Accounts n = none) :
    Withdraw b n a = (.error "account not found", b) := by
  simp [Withdraw, h]

theorem Withdraw_invalid (b : Bank) (n : String) (a : F64) (acc : Account)
    (h : b.Accounts n = some acc) (hle : F64.le a F64.zero = true) :
    Withdraw b n a = (.error "withdraw amount must be positive", b) := by
  simp [Withdraw, h, hle]

theorem Withdraw_insufficient (b : Bank) (n : String) (a : F64) (acc : Account)
    (h : b.Accounts n = some acc) (hle : F64.le a F64.zero = false)
    (hgt : F64.gt a acc.Balance = true) :
    Withdraw b n a = (.error "insufficient funds", b) := by
  simp [Withdraw, h, hle, hgt]

theorem Withdraw_ok (b : Bank) (n : String) (a : F64) (acc : Account)
    (h : b.Accounts n = some acc) (hle : F64.le a F64.zero = false)
    (hgt : F64.gt a acc.Balance = false) :
    Withdraw b n a = (.ok (), b.store n { acc with Balance := F64.sub acc.Balance a }) := by
  simp [Withdraw, h, hle, hgt]

theorem GetBalance_none (b : Bank) (n : String) (h : b.Accounts n = none) :
    GetBalance b n = (.error "account not found", b) := by
  simp [GetBalance, h]

theorem GetBalance_some (b : Bank) (n : String) (acc : Account)
    (h : b.Accounts n = some acc) : GetBalance b n = (.ok acc.Balance, b) := by
  simp [GetBalance, h]

/-- Writing an entry back unchanged gives the same ledger. -/
theorem Bank.store_self (b : Bank) (n : String) (acc : Account)
    (h : b.Accounts n = some acc) : b.store n acc = b := by
  cases b with
  | mk f =>
    simp only [Bank.store, Bank.mk.injEq]
    funext k
    by_cases hk : k = n
    · subst hk; simpa using h.symm
    · simp [hk]

/-- The second of two writes under one key is the one that stays. -/
theorem Bank.store_store (b : Bank) (n : String) (acc1 acc2 : Account) :
    (b.store n acc1).store n acc2 = b.store n acc2 := by
  simp only [Bank.store, Bank.mk.injEq]
  funext k
  by_cases hk : k = n <;> simp [hk]

/-! ## End-to-end scenario -/

/-- C12: from `NewBank()`, `CreateAccount("A1")` succeeds with balance 0.0; `Deposit("A1",
100.0)` succeeds and the balance is 100.0; `Withdraw("A1", 30.0)` succeeds and the balance is
70.0; `Withdraw("A1", 1000.0)` fails with "insufficient funds" and the balance stays 70.0;
`GetBalance("A1")` returns 70.0; `GetBalance("A2")` fails with "account not found". -/
theorem scenario_end_to_end :
    (CreateAccount NewBank "A1").1 = .ok { AccountNumber := "A1", Balance := F64.zero } ∧
    (GetBalance scenario1 "A1").1 = .ok F64.zero ∧
    (Deposit scenario1 "A1" (F64.ofNat 100)).1 = .ok () ∧
    (GetBalance scenario2 "A1").1 = .ok (F64.ofNat 100) ∧
    (Withdraw scenario2 "A1" (F64.ofNat 30)).1 = .ok () ∧
    (GetBalance scenario3 "A1").1 = .ok (F64.ofNat 70) ∧
    (Withdraw scenario3 "A1" (F64.ofNat 1000)).1 = .error "insufficient funds" ∧
    (GetBalance scenario4 "A1").1 = .ok (F64.ofNat 70) ∧
    (GetBalance scenario4 "A2").1 = .error "account not found" := by
  decide!

/-! ## Frame and lifecycle -/

/-- C17: `Deposit(n, a)` and `Withdraw(n, a)` leave every other key `m` as it was, present
or absent and with the same account, whether the call succeeds or fails. -/
theorem Deposit_Withdraw_frame (b : Bank) (n m : String) (a : F64) (hm : m ≠ n) :
    (Deposit b n a).2.Accounts m = b.Accounts m ∧
    (Withdraw b n a).2.Accounts m = b.Accounts m := by
  constructor
  · cases h : b.Accounts n with
    | none => rw [Deposit_none b n a h]
    | some acc =>
      cases hle : F64.le a F64.zero with
      | true => rw [Deposit_invalid b n a acc h hle]
      | false => rw [Deposit_ok b n a acc h hle]; exact Bank.store_other b n m _ hm
  · cases h : b.Accounts n with
    | none => rw [Withdraw_none b n a h]
    | some acc =>
      cases hle : F64.le a F64.zero with
      | true => rw [Withdraw_invalid b n a acc h hle]
      | false =>
        cases hgt : F64.gt a acc.Balance with
        | true => rw [Withdraw_insufficient b n a acc h hle hgt]
        | false => rw [Withdraw_ok b n a acc h hle hgt]; exact Bank.store_other b n m _ hm

theorem Deposit_Withdraw_frame_witness :
    (Deposit ledgerA1 "A2" (F64.ofNat 30)).2.Accounts "A1" = ledgerA1.Accounts "A1" ∧
    (Withdraw ledgerA1 "A1" (F64.ofNat 30)).2.Accounts "A2" = ledgerA1.Accounts "A2" :=
  ⟨(Deposit_Withdraw_frame ledgerA1 "A2" "A1" (F64.ofNat 30) (by decide)).1,
    (Deposit_Withdraw_frame ledgerA1 "A1" "A2" (F64.ofNat 30) (by decide)).2⟩

/-- A call either leaves the ledger as it was or writes one entry: a successful
`CreateAccount` writes a new key, a successful `Deposit` or `Withdraw` an existing one. -/
theorem step_shape (b : Bank) (op : Op) :
    step b op = b ∨ ∃ n acc1, step b op = b.store n acc1 ∧
      ((op = .create n ∧ b.Accounts n = none ∧ (CreateAccount b n).1 = .ok acc1) ∨
       (∃ a, op = .deposit n a ∧ b.Accounts n ≠ none ∧ (Deposit b n a).1 = .ok ()) ∨
       (∃ a, op = .withdraw n a ∧ b.Accounts n ≠ none ∧ (Withdraw b n a).1 = .ok ())) := by
  cases op with
  | create n =>
    cases h : b.Accounts n with
    | some acc => left; simp [step, CreateAccount_some b n acc h]
    | none =>
      right
      refine ⟨n, { AccountNumber := n, Balance := F64.zero }, ?_, Or.inl ⟨rfl, h, ?_⟩⟩ <;>
        simp [step, CreateAccount_none b n h]
  | deposit n a =>
    cases h : b.Accounts n with
    | none => left; simp [step, Deposit_none b n a h]
    | some acc =>
      cases hle : F64.le a F64.zero with
      | true => left; simp [step, Deposit_invalid b n a acc h hle]
      | false =>
        right
        refine ⟨n, { acc with Balance := F64.add acc.Balance a }, ?_,
          Or.inr (Or.inl ⟨a, rfl, by simp [h], ?_⟩)⟩ <;>
          simp [step, Deposit_ok b n a acc h hle]
  | withdraw n a =>
    cases h : b.Accounts n with
    | none => left; simp [step, Withdraw_none b n a h]
    | some acc =>
      cases hle : F64.le a F64.zero with
      | true => left; simp [step, Withdraw_invalid b n a acc h hle]
      | false =>
        cases hgt : F64.gt a acc.Balance with
        | true => left; simp [step, Withdraw_insufficient b n a acc h hle hgt]
        | false =>
          right
          refine ⟨n, { acc with Balance := F64.sub acc.Balance a }, ?_,
            Or.inr (Or.inr ⟨a, rfl, by simp [h], ?_⟩)⟩ <;>
            simp [step, Withdraw_ok b n a acc h hle hgt]
  | getBalance n =>
    left
    cases h : b.Accounts n with
    | none => simp [step, GetBalance_none b n h]
    | some acc => simp [step, GetBalance_some b n acc h]

/-- C13: no call removes a key; `Deposit`, `Withdraw` and `GetBalance` leave the set of keys
as it was; a successful `CreateAccount(n)` adds the key `n`, which was absent, and leaves
every other key with the account it had; and when a call changes the balance stored under
an existing key `k`, the call is a successful `Deposit` or `Withdraw` on `k`. -/
theorem account_lifecycle (b : Bank) (op : Op) :
    (∀ k, b.Accounts k ≠ none → (step b op).Accounts k ≠ none) ∧
    ((∀ n, op ≠ .create n) → ∀ k, (step b op).Accounts k = none ↔ b.Accounts k = none) ∧
    (∀ n acc, op = .create n → (CreateAccount b n).1 = .ok acc →
      b.Accounts n = none ∧ (step b op).Accounts n ≠ none ∧
      ∀ k, k ≠ n → (step b op).Accounts k = b.Accounts k) ∧
    (∀ k acc acc1, b.Accounts k = some acc → (step b op).Accounts k = some acc1 →
      acc1.Balance ≠ acc.Balance →
      (∃ a, op = .deposit k a ∧ (Deposit b k a).1 = .ok ()) ∨
      (∃ a, op = .withdraw k a ∧ (Withdraw b k a).1 = .ok ())) := by
  refine ⟨?_, ?_, ?_, ?_⟩
  · intro k hk
    rcases step_shape b op with hs | ⟨n, acc1, hs, _⟩
    · rw [hs]; exact hk
    · rw [hs]
      by_cases hkn : k = n
      · subst hkn; simp [Bank.store_same]
      · rw [Bank.store_other b n k acc1 hkn]; exact hk
  · intro hop k
    rcases step_shape b op with hs | ⟨n, acc1, hs, hc | ⟨a, _, hn, _⟩ | ⟨a, _, hn, _⟩⟩
    · rw [hs]
    · exact absurd hc.1 (hop n)
    · rw [hs]
      by_cases hkn : k = n
      · subst hkn; simp [Bank.store_same, hn]
      · rw [Bank.store_other b n k acc1 hkn]
    · rw [hs]
      by_cases hkn : k = n
      · subst hkn; simp [Bank.store_same, hn]
      · rw [Bank.store_other b n k acc1 hkn]
  · intro n acc hop hok
    subst hop
    cases h : b.Accounts n with
    | some acc0 => simp [CreateAccount_some b n acc0 h] at hok
    | none =>
      refine ⟨rfl, ?_, ?_⟩
      · simp [step, CreateAccount_none b n h, Bank.store_same]
      · intro k hk
        simp only [step, CreateAccount_none b n h]
        exact Bank.store_other b n k _ hk
  · intro k acc acc1 hk hk1 hne
    rcases step_shape b op with hs | ⟨n, acc2, hs, hc | ⟨a, hop, _, hok⟩ | ⟨a, hop, _, hok⟩⟩
    · rw [hs, hk] at hk1
      cases hk1
      exact absurd rfl hne
    · have hkn : k ≠ n := by
        intro h; subst h; rw [hc.2.1] at hk; cases hk
      rw [hs, Bank.store_other b n k acc2 hkn, hk] at hk1
      cases hk1
      exact absurd rfl hne
    · by_cases hkn : k = n
      · subst hkn; exact Or.inl ⟨a, hop, hok⟩
      · rw [hs, Bank.store_other b n k acc2 hkn, hk] at hk1
        cases hk1
        exact absurd rfl hne
    · by_cases hkn : k = n
      · subst hkn; exact Or.inr ⟨a, hop, hok⟩
      · rw [hs, Bank.store_other b n k acc2 hkn, hk] at hk1
        cases hk1
        exact absurd rfl hne

theorem account_lifecycle_witness :
    (step ledgerA1 (.withdraw "A1" (F64.ofNat 30))).Accounts "A1" ≠ none ∧
    ((step ledgerA1 (.deposit "A1" (F64.ofNat 30))).Accounts "A2" = none ↔
      ledgerA1.Accounts "A2" = none) ∧
    (step ledgerA1 (.create "A2")).Accounts "A2" ≠ none ∧
    (step ledgerA1 (.create "A2")).Accounts "A1" = ledgerA1.Accounts "A1" :=
  ⟨(account_lifecycle ledgerA1 (.withdraw "A1" (F64.ofNat 30))).1 "A1" (by decide!),
    (account_lifecycle ledgerA1 (.deposit "A1" (F64.ofNat 30))).2.1
      (fun n h => Op.noConfusion h) "A2",
    ((account_lifecycle ledgerA1 (.create "A2")).2.2.1 "A2"
      { AccountNumber := "A2", Balance := F64.zero } rfl (by decide!)).2.1,
    ((account_lifecycle ledgerA1 (.create "A2")).2.2.1 "A2"
      { AccountNumber := "A2", Balance := F64.zero } rfl (by decide!)).2.2 "A1" (by decide)⟩

/-! ## Amounts that are not positive numbers -/

/-- An amount that is not NaN and not `<= 0` is `> 0`. -/
theorem F64.gt_zero_of_not_le (a : F64) (hnan : a.isNaN = false)
    (hle : F64.le a F64.zero = false) : F64.gt a F64.zero = true := by
  cases a with
  | nan => simp [F64.isNaN] at hnan
  | inf s => cases s <;> simp_all [F64.gt, F64.lt, F64.le, F64.zero]
  | fin s n =>
    simp only [F64.gt, F64.lt, F64.zero, F64.le, decide_eq_true_eq, decide_eq_false_iff_not,
      F64.sval_zero] at *
    omega

/-- For an amount that is not NaN, a successful `Deposit` or `Withdraw` had `a > 0`. -/
theorem accepted_amount_pos (b : Bank) (n : String) (a : F64) (hnan : a.isNaN = false) :
    ((Deposit b n a).1 = .ok () → F64.gt a F64.zero = true) ∧
    ((Withdraw b n a).1 = .ok () → F64.gt a F64.zero = true) := by
  constructor
  · intro hok
    cases h : b.Accounts n with
    | none => simp [Deposit_none b n a h] at hok
    | some acc =>
      cases hle : F64.le a F64.zero with
      | true => simp [Deposit_invalid b n a acc h hle] at hok
      | false => exact F64.gt_zero_of_not_le a hnan hle
  · intro hok
    cases h : b.Accounts n with
    | none => simp [Withdraw_none b n a h] at hok
    | some acc =>
      cases hle : F64.le a F64.zero with
      | true => simp [Withdraw_invalid b n a acc h hle] at hok
      | false => exact F64.gt_zero_of_not_le a hnan hle

/-- C15 at the amount NaN: `NaN > 0` is false, yet on the ledger where "A1" holds 100.0 both
`Deposit("A1", NaN)` and `Withdraw("A1", NaN)` return no error and leave the balance NaN. -/
theorem amount_nan_accepted :
    F64.gt F64.nan F64.zero = false ∧
    (Deposit ledgerA1 "A1" F64.nan).1 = .ok () ∧
    (GetBalance (Deposit ledgerA1 "A1" F64.nan).2 "A1").1 = .ok F64.nan ∧
    (Withdraw ledgerA1 "A1" F64.nan).1 = .ok () ∧
    (GetBalance (Withdraw ledgerA1 "A1" F64.nan).2 "A1").1 = .ok F64.nan := by
  decide!

/-! ## The empty account number -/

/-- A newly created account, whatever its number: it reads 0.0, accepts a positive deposit,
refuses a non-positive amount and refuses a positive withdrawal from its zero balance. -/
theorem fresh_account_behaviour (b : Bank) (n : String) (h : b.Accounts n = none) :
    (CreateAccount b n).1 = .ok { AccountNumber := n, Balance := F64.zero } ∧
    (GetBalance (CreateAccount b n).2 n).1 = .ok F64.zero ∧
    (∀ a, F64.gt a F64.zero = true →
      (Deposit (CreateAccount b n).2 n a).1 = .ok () ∧
      (GetBalance (Deposit (CreateAccount b n).2 n a).2 n).1 = .ok (F64.add F64.zero a) ∧
      (Withdraw (CreateAccount b n).2 n a).1 = .error "insufficient funds") ∧
    (∀ a, F64.le a F64.zero = true →
      (Deposit (CreateAccount b n).2 n a).1 = .error "deposit amount must be positive" ∧
      (Withdraw (CreateAccount b n).2 n a).1 = .error "withdraw amount must be positive") := by
  have hc := CreateAccount_none b n h
  have hs : (b.store n { AccountNumber := n, Balance := F64.zero }).Accounts n =
      some { AccountNumber := n, Balance := F64.zero } := Bank.store_same b n _
  refine ⟨by rw [hc], ?_, ?_, ?_⟩
  · rw [hc]; simp only; rw [GetBalance_some _ n _ hs]
  · intro a ha
    have hle := F64.le_zero_of_gt_zero a ha
    rw [hc]; simp only
    refine ⟨?_, ?_, ?_⟩
    · rw [Deposit_ok _ n a _ hs hle]
    · rw [Deposit_ok _ n a _ hs hle]; simp only
      rw [GetBalance_some _ n _ (Bank.store_same _ n _)]
    · rw [Withdraw_insufficient _ n a _ hs hle ha]
  · intro a hle
    rw [hc]; simp only
    exact ⟨by rw [Deposit_invalid _ n a _ hs hle], by rw [Withdraw_invalid _ n a _ hs hle]⟩

/-- C16: the ledger does not validate the account number: when the empty string is not a
key, `CreateAccount("")` succeeds with number "" and balance 0.0, and `GetBalance`,
`Deposit` and `Withdraw` then treat the key "" as they treat any other new account. -/
theorem empty_account_number (b : Bank) (h : b.Accounts "" = none) :
    (CreateAccount b "").1 = .ok { AccountNumber := "", Balance := F64.zero } ∧
    (GetBalance (CreateAccount b "").2 "").1 = .ok F64.zero ∧
    (∀ a, F64.gt a F64.zero = true →
      (Deposit (CreateAccount b "").2 "" a).1 = .ok () ∧
      (GetBalance (Deposit (CreateAccount b "").2 "" a).2 "").1 = .ok (F64.add F64.zero a) ∧
      (Withdraw (CreateAccount b "").2 "" a).1 = .error "insufficient funds") ∧
    (∀ a, F64.le a F64.zero = true →
      (Deposit (CreateAccount b "").2 "" a).1 = .error "deposit amount must be positive" ∧
      (Withdraw (CreateAccount b "").2 "" a).1 = .error "withdraw amount must be positive") :=
  fresh_account_behaviour b "" h

theorem empty_account_number_witness :
    (CreateAccount ledgerA1 "").1 = .ok { AccountNumber := "", Balance := F64.zero } ∧
    (GetBalance (CreateAccount ledgerA1 "").2 "").1 = .ok F64.zero ∧
    (Deposit (CreateAccount ledgerA1 "").2 "" (F64.ofNat 30)).1 = .ok () ∧
    (GetBalance (Deposit (CreateAccount ledgerA1 "").2 "" (F64.ofNat 30)).2 "").1 =
      .ok (F64.ofNat 30) :=
  have h := empty_account_number ledgerA1 (by decide!)
  ⟨h.1, h.2.1, (h.2.2.1 (F64.ofNat 30) (by decide!)).1,
    (h.2.2.1 (F64.ofNat 30) (by decide!)).2.1.trans (by decide!)⟩

/-! ## No panic -/

theorem raw_lookup_ofBank (b : Bank) (n : String) :
    (Raw.ofBank b).lookup n = (b.Accounts n).map some := rfl

theorem raw_ofBank_store (b : Bank) (n : String) (acc : Account) :
    ({ Accounts := some (fun k => if k = n then some (some acc)
        else (b.Accounts k).map some) } : Raw.Bank) = Raw.ofBank (b.store n acc) := by
  simp only [Raw.ofBank, Bank.store, Raw.Bank.mk.injEq, Option.some.injEq]
  funext k
  by_cases hk : k = n <;> simp [hk]

/-- On a ledger with an allocated map and no nil pointer, `CreateAccount` returns what the
model returns. -/
theorem raw_CreateAccount_ofBank (b : Bank) (n : String) :
    Raw.CreateAccount (Raw.ofBank b) n =
      (.returned (CreateAccount b n).1, Raw.ofBank (CreateAccount b n).2) := by
  cases h : b.Accounts n with
  | some acc =>
    simp [Raw.CreateAccount, raw_lookup_ofBank, h, CreateAccount_some b n acc h]
  | none =>
    simp only [Raw.CreateAccount, raw_lookup_ofBank, h, CreateAccount_none b n h, Option.map]
    rw [← raw_ofBank_store]
    rfl

theorem raw_Deposit_ofBank (b : Bank) (n : String) (a : F64) :
    Raw.Deposit (Raw.ofBank b) n a =
      (.returned (Deposit b n a).1, Raw.ofBank (Deposit b n a).2) := by
  cases h : b.Accounts n with
  | none => simp [Raw.Deposit, raw_lookup_ofBank, h, Deposit_none b n a h]
  | some acc =>
    cases hle : F64.le a F64.zero with
    | true => simp [Raw.Deposit, raw_lookup_ofBank, h, hle, Deposit_invalid b n a acc h hle]
    | false =>
      simp only [Raw.Deposit, raw_lookup_ofBank, h, hle, Deposit_ok b n a acc h hle, Option.map]
      rw [← raw_ofBank_store]
      rfl

theorem raw_Withdraw_ofBank (b : Bank) (n : String) (a : F64) :
    Raw.Withdraw (Raw.ofBank b) n a =
      (.returned (Withdraw b n a).1, Raw.ofBank (Withdraw b n a).2) := by
  cases h : b.Accounts n with
  | none => simp [Raw.Withdraw, raw_lookup_ofBank, h, Withdraw_none b n a h]
  | some acc =>
    have hl : (Raw.ofBank b).lookup n = some (some acc) := by
      rw [raw_lookup_ofBank, h]; rfl
    have hm : (Raw.ofBank b).Accounts = some (fun k => (b.Accounts k).map some) := rfl
    cases hle : F64.le a F64.zero with
    | true => simp [Raw.Withdraw, raw_lookup_ofBank, h, hle, Withdraw_invalid b n a acc h hle]
    | false =>
      cases hgt : F64.gt a acc.Balance with
      | true =>
        rw [Withdraw_insufficient b n a acc h hle hgt]
        simp [Raw.Withdraw, hl, hm, hle, hgt]
      | false =>
        rw [Withdraw_ok b n a acc h hle hgt]
        simp [Raw.Withdraw, hl, hm, hle, hgt, ← raw_ofBank_store]

theorem raw_GetBalance_ofBank (b : Bank) (n : String) :
    Raw.GetBalance (Raw.ofBank b) n =
      (.returned (GetBalance b n).1, Raw.ofBank (GetBalance b n).2) := by
  cases h : b.Accounts n with
  | none => simp [Raw.GetBalance, raw_lookup_ofBank, h, GetBalance_none b n h]
  | some acc => simp [Raw.GetBalance, raw_lookup_ofBank, h, GetBalance_some b n acc h]

theorem raw_step_ofBank (b : Bank) (op : Op) :
    Raw.step (Raw.ofBank b) op = Raw.ofBank (step b op) := by
  cases op with
  | create n => simp [Raw.step, step, raw_CreateAccount_ofBank]
  | deposit n a => simp [Raw.step, step, raw_Deposit_ofBank]
  | withdraw n a => simp [Raw.step, step, raw_Withdraw_ofBank]
  | getBalance n => simp [Raw.step, step, raw_GetBalance_ofBank]

theorem raw_run_ofBank (ops : List Op) (b : Bank) :
    Raw.run (Raw.ofBank b) ops = Raw.ofBank (run b ops) := by
  induction ops generalizing b with
  | nil => rfl
  | cons op rest ih =>
    simp only [Raw.run, run, List.foldl_cons] at ih ⊢
    rw [raw_step_ofBank]
    exact ih (step b op)

/-- The panics are real on other ledgers: `CreateAccount` panics on the nil map, and
`Deposit`, `Withdraw` and `GetBalance` panic on a key that holds a nil pointer. -/
theorem raw_panics_off_NewBank :
    (Raw.CreateAccount { Accounts := none } "A1").1 = .panicked ∧
    (Raw.Deposit { Accounts := some (fun _ => some none) } "A1" (F64.ofNat 1)).1 = .panicked ∧
    (Raw.Withdraw { Accounts := some (fun _ => some none) } "A1" (F64.ofNat 1)).1 = .panicked ∧
    (Raw.GetBalance { Accounts := some (fun _ => some none) } "A1").1 = .panicked := by
  decide!

/-- C14: on every ledger reachable from `NewBank()` by the four operations, for every account
number and every amount, each of `CreateAccount`, `Deposit`, `Withdraw` and `GetBalance`
returns a result or an error and does not panic: the map is never nil and no stored pointer
is nil. -/
theorem no_panic_reachable (rb : Raw.Bank) (hrb : Raw.Reachable rb) (n : String) (a : F64) :
    (∃ r, (Raw.CreateAccount rb n).1 = .returned r) ∧
    (∃ r, (Raw.Deposit rb n a).1 = .returned r) ∧
    (∃ r, (Raw.Withdraw rb n a).1 = .returned r) ∧
    (∃ r, (Raw.GetBalance rb n).1 = .returned r) := by
  obtain ⟨ops, rfl⟩ := hrb
  have h : Raw.run Raw.NewBank ops = Raw.ofBank (run NewBank ops) :=
    raw_run_ofBank ops NewBank
  rw [h]
  exact ⟨⟨_, by rw [raw_CreateAccount_ofBank]⟩, ⟨_, by rw [raw_Deposit_ofBank]⟩,
    ⟨_, by rw [raw_Withdraw_ofBank]⟩, ⟨_, by rw [raw_GetBalance_ofBank]⟩⟩

theorem no_panic_reachable_witness :
    Raw.Reachable (Raw.run Raw.NewBank [.create "A1", .deposit "A1" (F64.ofNat 100)]) ∧
    (∃ r, (Raw.CreateAccount
      (Raw.run Raw.NewBank [.create "A1", .deposit "A1" (F64.ofNat 100)]) "").1 =
        .returned r) ∧
    (∃ r, (Raw.Deposit
      (Raw.run Raw.NewBank [.create "A1", .deposit "A1" (F64.ofNat 100)]) "" F64.nan).1 =
        .returned r) ∧
    (∃ r, (Raw.Withdraw
      (Raw.run Raw.NewBank [.create "A1", .deposit "A1" (F64.ofNat 100)]) "" F64.nan).1 =
        .returned r) ∧
    (∃ r, (Raw.GetBalance
      (Raw.run Raw.NewBank [.create "A1", .deposit "A1" (F64.ofNat 100)]) "").1 =
        .returned r) :=
  ⟨⟨_, rfl⟩, no_panic_reachable _ ⟨_, rfl⟩ "" F64.nan⟩

/-! ## Rounding never goes below a representable lower bound -/

theorem F64.bitLenAux_zero (fuel : Nat) : F64.bitLenAux fuel 0 = 0 := by
  cases fuel <;> simp [F64.bitLenAux]

/-- With enough fuel, `bitLenAux` is the number of binary digits. -/
theorem F64.bitLenAux_spec (fuel : Nat) : ∀ n, n ≤ fuel →
    n < 2 ^ F64.bitLenAux fuel n ∧ (0 < n → 2 ^ (F64.bitLenAux fuel n - 1) ≤ n) := by
  induction fuel with
  | zero =>
    intro n hn
    have h0 : n = 0 := by omega
    subst h0
    simp [F64.bitLenAux]
  | succ f ih =>
    intro n hn
    by_cases h0 : n = 0
    · subst h0; simp [F64.bitLenAux]
    · have hrec : F64.bitLenAux (f + 1) n = F64.bitLenAux f (n / 2) + 1 := by
        simp [F64.bitLenAux, h0]
      have hhalf : n / 2 ≤ f := by omega
      obtain ⟨hlt, hge⟩ := ih (n / 2) hhalf
      rw [hrec]
      constructor
      · rw [pow_succ]; omega
      · intro _
        simp only [Nat.add_sub_cancel]
        by_cases h1 : n / 2 = 0
        · rw [h1, F64.bitLenAux_zero]; simp; omega
        · have hpos : 0 < n / 2 := Nat.pos_of_ne_zero h1
          have hL : F64.bitLenAux f (n / 2) ≠ 0 := by
            intro hL; rw [hL] at hlt; simp at hlt; omega
          have hge1 := hge hpos
          obtain ⟨L, hLs⟩ := Nat.exists_eq_succ_of_ne_zero hL
          rw [hLs] at hge1 ⊢
          simp only [Nat.succ_sub_one] at hge1
          rw [Nat.succ_eq_add_one, pow_succ]
          omega

theorem F64.lt_two_pow_bitLen (n : Nat) : n < 2 ^ F64.bitLen n :=
  (F64.bitLenAux_spec n n (Nat.le_refl n)).1

theorem F64.two_pow_bitLen_le (n : Nat) (h : 0 < n) : 2 ^ (F64.bitLen n - 1) ≤ n :=
  (F64.bitLenAux_spec n n (Nat.le_refl n)).2 h

theorem F64.bitLen_mono (k z : Nat) (hk : 0 < k) (h : k ≤ z) : F64.bitLen k ≤ F64.bitLen z := by
  have h1 := F64.two_pow_bitLen_le k hk
  have h2 := F64.lt_two_pow_bitLen z
  have h3 : 2 ^ (F64.bitLen k - 1) < 2 ^ F64.bitLen z := by omega
  have h4 := (Nat.pow_lt_pow_iff_right (by norm_num : 1 < 2)).1 h3
  have h5 : F64.bitLen k ≠ 0 := by
    intro h0
    have := F64.lt_two_pow_bitLen k
    rw [h0] at this
    simp at this
    omega
  omega

/-- A value that `roundNat` returns is a multiple of the weight of the last kept digit, and
at least the exact value truncated to the kept digits. -/
theorem F64.roundNat_some (n r : Nat) (h : F64.roundNat n = some r) :
    ∃ q, n / 2 ^ (F64.bitLen n - 53) ≤ q ∧ r = q * 2 ^ (F64.bitLen n - 53) := by
  unfold F64.roundNat at h
  generalize (2 : Nat) ^ 2098 = B at h
  dsimp only at h
  split at h <;> split at h
  all_goals first
    | (injection h with h; exact ⟨_, by omega, h.symm⟩)
    | injection h

/-- Rounding is at least every binary64 value that the exact value is at least. -/
theorem F64.roundNat_ge (k z r : Nat) (hk : 0 < k) (hwf : F64.roundNat k = some k)
    (hkz : k ≤ z) (hr : F64.roundNat z = some r) : k ≤ r := by
  obtain ⟨q, hq, hrq⟩ := F64.roundNat_some z r hr
  have hfloor : z / 2 ^ (F64.bitLen z - 53) * 2 ^ (F64.bitLen z - 53) ≤ r := by
    rw [hrq]; exact Nat.mul_le_mul_right _ hq
  have hmono := F64.bitLen_mono k z hk hkz
  have hpos : 0 < 2 ^ (F64.bitLen z - 53) := Nat.pow_pos (by norm_num)
  by_cases hs : F64.bitLen k - 53 = F64.bitLen z - 53
  · obtain ⟨m, _, hm⟩ := F64.roundNat_some k k hwf
    rw [hs] at hm
    have h1 : m ≤ z / 2 ^ (F64.bitLen z - 53) := by
      rw [Nat.le_div_iff_mul_le hpos, ← hm]; exact hkz
    have h2 := Nat.mul_le_mul_right (2 ^ (F64.bitLen z - 53)) h1
    rw [← hm] at h2
    exact Nat.le_trans h2 hfloor
  · have hlt : F64.bitLen k ≤ F64.bitLen z - 1 := by omega
    have hz53 : 53 < F64.bitLen z := by omega
    have h1 : k < 2 ^ (F64.bitLen z - 1) :=
      Nat.lt_of_lt_of_le (F64.lt_two_pow_bitLen k) (Nat.pow_le_pow_right (by norm_num) hlt)
    have h2 : 2 ^ (F64.bitLen z - 1) ≤ z := F64.two_pow_bitLen_le z (by omega)
    have he : F64.bitLen z - 1 = 52 + (F64.bitLen z - 53) := by omega
    have h3 : 2 ^ (F64.bitLen z - 1) = 2 ^ 52 * 2 ^ (F64.bitLen z - 53) := by
      rw [he, pow_add]
    have h4 : 2 ^ 52 ≤ z / 2 ^ (F64.bitLen z - 53) := by
      rw [Nat.le_div_iff_mul_le hpos, ← h3]; exact h2
    have h5 := Nat.mul_le_mul_right (2 ^ (F64.bitLen z - 53)) h4
    rw [← h3] at h5
    omega

/-- The rounding of an exact value is the rounded magnitude with the sign of the value, or
the infinity of that sign on overflow. -/
theorem F64.ofInt_cases (z : Int) :
    (∃ r, F64.roundNat z.natAbs = some r ∧ F64.ofInt z = F64.fin (decide (z < 0)) r) ∨
    F64.ofInt z = F64.inf (decide (z < 0)) := by
  unfold F64.ofInt
  cases F64.roundNat z.natAbs with
  | none => right; rfl
  | some r => left; exact ⟨r, rfl, rfl⟩

/-- A positive finite float has the sign bit clear and a non-zero magnitude. -/
theorem F64.fin_pos (t : Bool) (k : Nat) (ha : F64.gt (F64.fin t k) F64.zero = true) :
    t = false ∧ 0 < k := by
  simp only [F64.gt, F64.lt, F64.zero, decide_eq_true_eq, F64.sval_zero] at ha
  cases t with
  | false => simp only [F64.sval, Bool.false_eq_true, if_false] at ha; exact ⟨rfl, by omega⟩
  | true => simp only [F64.sval, if_true] at ha; omega

/-- For a balance `>= 0` and a positive binary64 amount, the amount does not exceed the
float64 sum of the two. -/
theorem F64.not_gt_add (x a : F64) (hx : F64.ge x F64.zero = true)
    (ha : F64.gt a F64.zero = true) (hwf : a.WF = true) : F64.gt a (F64.add x a) = false := by
  cases a with
  | nan => simp [F64.gt, F64.lt, F64.zero] at ha
  | inf t =>
    cases t with
    | true => simp [F64.gt, F64.lt, F64.zero] at ha
    | false =>
      cases x with
      | nan => simp [F64.ge, F64.le, F64.zero] at hx
      | inf s => cases s <;> simp_all [F64.ge, F64.le, F64.zero, F64.add, F64.gt, F64.lt]
      | fin s n => simp [F64.add, F64.gt, F64.lt]
  | fin t k =>
    obtain ⟨ht, hk0⟩ := F64.fin_pos t k ha
    subst ht
    simp only [F64.WF, decide_eq_true_eq] at hwf
    cases x with
    | nan => simp [F64.ge, F64.le, F64.zero] at hx
    | inf s => cases s <;> simp_all [F64.ge, F64.le, F64.zero, F64.add, F64.gt, F64.lt]
    | fin s n =>
      simp only [F64.ge, F64.le, F64.zero, decide_eq_true_eq, F64.sval_zero] at hx
      have hkv : F64.sval false k = (k : Int) := by simp [F64.sval]
      simp only [F64.add, F64.gt, hkv]
      generalize F64.sval s n = v at hx ⊢
      have hz : ¬ (v + (k : Int) = 0) := by omega
      have hk : k ≤ (v + (k : Int)).natAbs := by omega
      have hneg : decide (v + (k : Int) < 0) = false := by simp; omega
      simp only [hz, if_false]
      rcases F64.ofInt_cases (v + (k : Int)) with ⟨r, hr, ho⟩ | ho
      · have hkr := F64.roundNat_ge k _ r hk0 hwf hk hr
        rw [ho, hneg]
        simp only [F64.lt, F64.sval, Bool.false_eq_true, if_false, decide_eq_false_iff_not]
        omega
      · rw [ho, hneg]
        simp [F64.lt]

/-! ## Unrounded sums -/

theorem F64.toInt_ofExact (z : Int) : F64.toInt? (F64.ofExact z) = some z := by
  simp only [F64.ofExact, F64.toInt?, F64.sval, Option.some.injEq]
  by_cases hz : z < 0
  · simp only [hz, decide_True, if_true]; omega
  · simp only [hz, decide_False, Bool.false_eq_true, if_false]; omega

/-- An unrounded sum has the exact value of the sum of the operands. -/
theorem F64.toInt_add_of_exact (x y : F64) (he : F64.addExact x y = true) :
    ∃ vx vy, F64.toInt? x = some vx ∧ F64.toInt? y = some vy ∧
      F64.toInt? (F64.add x y) = some (vx + vy) := by
  cases x with
  | nan => simp [F64.addExact] at he
  | inf s => simp [F64.addExact] at he
  | fin s n =>
    cases y with
    | nan => simp [F64.addExact] at he
    | inf t => simp [F64.addExact] at he
    | fin t k =>
      simp only [F64.addExact, decide_eq_true_eq] at he
      refine ⟨F64.sval s n, F64.sval t k, rfl, rfl, ?_⟩
      simp only [F64.add]
      generalize F64.sval s n + F64.sval t k = z at he ⊢
      by_cases hz : z = 0
      · simp [hz, F64.toInt?, F64.sval_zero]
      · simp only [hz, if_false]
        have ho : F64.ofInt z = F64.ofExact z := by
          unfold F64.ofInt
          rw [he]
          rfl
        rw [ho, F64.toInt_ofExact]

/-- An unrounded sum with a positive amount is the float of the exact sum. -/
theorem F64.add_of_exact_pos (x a : F64) (ha : F64.gt a F64.zero = true)
    (he : F64.addExact x a = true) :
    ∃ vx va, F64.toInt? x = some vx ∧ F64.toInt? a = some va ∧
      F64.add x a = F64.ofExact (vx + va) := by
  cases x with
  | nan => simp [F64.addExact] at he
  | inf s => simp [F64.addExact] at he
  | fin s n =>
    cases a with
    | nan => simp [F64.addExact] at he
    | inf t => simp [F64.addExact] at he
    | fin t k =>
      obtain ⟨ht, _⟩ := F64.fin_pos t k ha
      subst ht
      simp only [F64.addExact, decide_eq_true_eq] at he
      refine ⟨F64.sval s n, F64.sval false k, rfl, rfl, ?_⟩
      simp only [F64.add]
      generalize F64.sval s n + F64.sval false k = z at he ⊢
      by_cases hz : z = 0
      · simp [hz, F64.ofExact]
      · simp only [hz, if_false]
        unfold F64.ofInt
        rw [he]
        rfl

/-- Adding a positive amount without rounding and subtracting it again gives back a
binary64 balance `>= 0` other than negative zero. -/
theorem F64.add_sub_cancel_of_exact (x a : F64) (hx : F64.ge x F64.zero = true)
    (ha : F64.gt a F64.zero = true) (he : F64.addExact x a = true) (hwf : x.WF = true)
    (hnz : x ≠ F64.fin true 0) : F64.sub (F64.add x a) a = x := by
  obtain ⟨vx, va, hvx, hva, hadd⟩ := F64.add_of_exact_pos x a ha he
  cases x with
  | nan => simp [F64.addExact] at he
  | inf s => simp [F64.addExact] at he
  | fin s n =>
    cases a with
    | nan => simp [F64.addExact] at he
    | inf t => simp [F64.addExact] at he
    | fin t k =>
      obtain ⟨ht, hk0⟩ := F64.fin_pos t k ha
      subst ht
      simp only [F64.ge, F64.le, F64.zero, decide_eq_true_eq, F64.sval_zero] at hx
      simp only [F64.WF, decide_eq_true_eq] at hwf
      have hs : s = false := by
        cases s with
        | false => rfl
        | true =>
          simp only [F64.sval, if_true] at hx
          have hn0 : n = 0 := by omega
          subst hn0
          exact absurd rfl hnz
      subst hs
      simp only [F64.toInt?, F64.sval, Bool.false_eq_true, if_false, Option.some.injEq]
        at hvx hva
      subst hvx hva
      rw [hadd]
      have hna : ((n : Int) + (k : Int)).natAbs = n + k := by omega
      have hdec : decide ((n : Int) + (k : Int) < 0) = false := by simp; omega
      simp only [F64.ofExact, hna, hdec, F64.sub, F64.neg, F64.add, F64.sval,
        Bool.false_eq_true, if_false, Bool.not_false, if_true]
      have hz : ((n + k : Nat) : Int) + -(k : Int) = (n : Int) := by push_cast; omega
      rw [hz]
      by_cases hn0 : (n : Int) = 0
      · have : n = 0 := by omega
        subst this
        simp
      · simp only [hn0, if_false]
        unfold F64.ofInt
        have hnat : ((n : Int)).natAbs = n := by omega
        rw [hnat, hwf]
        simp

/-! ## Sequences of two calls on one account -/

/-- Two accepted deposits on one account, in one write. -/
theorem Deposit_Deposit (b : Bank) (n : String) (acc : Account) (a1 a2 : F64)
    (hn : b.Accounts n = some acc) (h1 : F64.le a1 F64.zero = false)
    (h2 : F64.le a2 F64.zero = false) :
    Deposit (Deposit b n a1).2 n a2 =
      (.ok (), b.store n
        { acc with Balance := F64.add (F64.add acc.Balance a1) a2 }) := by
  rw [Deposit_ok b n a1 acc hn h1]
  simp only
  rw [Deposit_ok _ n a2 _ (Bank.store_same b n _) h2, Bank.store_store]

/-- C11 as stated fails: on the ledger where "A1" holds `2^53`, depositing 1 then 2 leaves
`2^53 + 2`, and depositing 2 then 1 leaves `2^53 + 4`; all four deposits succeed. -/
theorem deposits_order_matters :
    (GetBalance ledgerBig "A1").1 = .ok (F64.ofNat (2 ^ 53)) ∧
    F64.gt (F64.ofNat 1) F64.zero = true ∧ F64.gt (F64.ofNat 2) F64.zero = true ∧
    (Deposit ledgerBig "A1" (F64.ofNat 1)).1 = .ok () ∧
    (Deposit (Deposit ledgerBig "A1" (F64.ofNat 1)).2 "A1" (F64.ofNat 2)).1 = .ok () ∧
    (Deposit ledgerBig "A1" (F64.ofNat 2)).1 = .ok () ∧
    (Deposit (Deposit ledgerBig "A1" (F64.ofNat 2)).2 "A1" (F64.ofNat 1)).1 = .ok () ∧
    (GetBalance (Deposit (Deposit ledgerBig "A1" (F64.ofNat 1)).2 "A1" (F64.ofNat 2)).2
      "A1").1 = .ok (F64.ofNat (2 ^ 53 + 2)) ∧
    (GetBalance (Deposit (Deposit ledgerBig "A1" (F64.ofNat 2)).2 "A1" (F64.ofNat 1)).2
      "A1").1 = .ok (F64.ofNat (2 ^ 53 + 4)) ∧
    F64.ofNat (2 ^ 53 + 2) ≠ F64.ofNat (2 ^ 53 + 4) := by
  decide!

/-- C11, amended: for every ledger, every existing account `n` with balance `b` and all
amounts `a1 > 0` and `a2 > 0`, the deposits succeed in both orders; the first order leaves
the balance `(b + a1) + a2` and the second `(b + a2) + a1`, each sum rounded to float64; and
when none of these four sums is rounded, the two final ledgers are the same. -/
theorem Deposit_commute (b : Bank) (n : String) (acc : Account) (a1 a2 : F64)
    (hn : b.Accounts n = some acc) (h1 : F64.gt a1 F64.zero = true)
    (h2 : F64.gt a2 F64.zero = true) :
    (Deposit b n a1).1 = .ok () ∧ (Deposit (Deposit b n a1).2 n a2).1 = .ok () ∧
    (Deposit b n a2).1 = .ok () ∧ (Deposit (Deposit b n a2).2 n a1).1 = .ok () ∧
    (GetBalance (Deposit (Deposit b n a1).2 n a2).2 n).1 =
      .ok (F64.add (F64.add acc.Balance a1) a2) ∧
    (GetBalance (Deposit (Deposit b n a2).2 n a1).2 n).1 =
      .ok (F64.add (F64.add acc.Balance a2) a1) ∧
    (F64.addExact acc.Balance a1 = true → F64.addExact (F64.add acc.Balance a1) a2 = true →
      F64.addExact acc.Balance a2 = true → F64.addExact (F64.add acc.Balance a2) a1 = true →
      (Deposit (Deposit b n a1).2 n a2).2 = (Deposit (Deposit b n a2).2 n a1).2) := by
  have hl1 := F64.le_zero_of_gt_zero a1 h1
  have hl2 := F64.le_zero_of_gt_zero a2 h2
  have h12 := Deposit_Deposit b n acc a1 a2 hn hl1 hl2
  have h21 := Deposit_Deposit b n acc a2 a1 hn hl2 hl1
  refine ⟨by rw [Deposit_ok b n a1 acc hn hl1], by rw [h12],
    by rw [Deposit_ok b n a2 acc hn hl2], by rw [h21], ?_, ?_, ?_⟩
  · rw [h12]; simp only
    rw [GetBalance_some _ n _ (Bank.store_same b n _)]
  · rw [h21]; simp only
    rw [GetBalance_some _ n _ (Bank.store_same b n _)]
  · intro e1 e12 e2 e21
    obtain ⟨vb, v1, hvb, hv1, hs1⟩ := F64.add_of_exact_pos acc.Balance a1 h1 e1
    obtain ⟨vb2, v2, hvb2, hv2, hs2⟩ := F64.add_of_exact_pos acc.Balance a2 h2 e2
    obtain ⟨w1, v2', hw1, hv2', hs12⟩ := F64.add_of_exact_pos _ a2 h2 e12
    obtain ⟨w2, v1', hw2, hv1', hs21⟩ := F64.add_of_exact_pos _ a1 h1 e21
    rw [hs1, F64.toInt_ofExact] at hw1
    rw [hs2, F64.toInt_ofExact] at hw2
    rw [hvb] at hvb2
    rw [hv2] at hv2'
    rw [hv1] at hv1'
    cases hw1; cases hw2; cases hvb2; cases hv2'; cases hv1'
    have hsum : vb + v1 + v2 = vb + v2 + v1 := by omega
    rw [h12, h21]
    simp only
    rw [hs12, hs21, hsum]

theorem Deposit_commute_witness :
    (Deposit (Deposit ledgerA1 "A1" (F64.ofNat 30)).2 "A1" (F64.ofNat 70)).1 = .ok () ∧
    (Deposit (Deposit ledgerA1 "A1" (F64.ofNat 70)).2 "A1" (F64.ofNat 30)).1 = .ok () ∧
    (GetBalance (Deposit (Deposit ledgerA1 "A1" (F64.ofNat 30)).2 "A1" (F64.ofNat 70)).2
      "A1").1 = .ok (F64.ofNat 200) ∧
    (Deposit (Deposit ledgerA1 "A1" (F64.ofNat 30)).2 "A1" (F64.ofNat 70)).2 =
      (Deposit (Deposit ledgerA1 "A1" (F64.ofNat 70)).2 "A1" (F64.ofNat 30)).2 :=
  have h := Deposit_commute ledgerA1 "A1" { AccountNumber := "A1", Balance := F64.ofNat 100 }
    (F64.ofNat 30) (F64.ofNat 70) (by decide!) (by decide!) (by decide!)
  ⟨h.2.1, h.2.2.2.1, h.2.2.2.2.1.trans (by decide!),
    h.2.2.2.2.2.2 (by decide!) (by decide!) (by decide!) (by decide!)⟩

/-- C18 as stated fails: on the ledger where "A1" holds `2^53` (every balance `>= 0`),
`Deposit("A1", 1)` succeeds and leaves `2^53` (the sum is rounded), the following
`Withdraw("A1", 1)` succeeds, and the balance left is `2^53 - 1`, not `2^53`. -/
theorem deposit_withdraw_not_round_trip :
    NoOverdraft ledgerBig ∧
    (GetBalance ledgerBig "A1").1 = .ok (F64.ofNat (2 ^ 53)) ∧
    F64.gt (F64.ofNat 1) F64.zero = true ∧
    (Deposit ledgerBig "A1" (F64.ofNat 1)).1 = .ok () ∧
    (Withdraw (Deposit ledgerBig "A1" (F64.ofNat 1)).2 "A1" (F64.ofNat 1)).1 = .ok () ∧
    (GetBalance (Withdraw (Deposit ledgerBig "A1" (F64.ofNat 1)).2 "A1" (F64.ofNat 1)).2
      "A1").1 = .ok (F64.ofNat (2 ^ 53 - 1)) ∧
    F64.ofNat (2 ^ 53 - 1) ≠ F64.ofNat (2 ^ 53) :=
  ⟨NoOverdraft_run _ NewBank (fun k acc hk => by simp [NewBank] at hk) (by decide),
    by decide!⟩

/-- C18, amended: for every ledger satisfying `balance >= 0`, every existing account `n`
with balance `b` and every float64 amount `a > 0`, `Deposit(n, a)` succeeds, the following
`Withdraw(n, a)` also succeeds, and the balance left is `(b + a) - a` in float64 arithmetic;
when the sum `b + a` is not rounded (and `b` is a float64 other than negative zero), the
resulting ledger equals the original one. -/
theorem Deposit_then_Withdraw (b : Bank) (n : String) (acc : Account) (a : F64)
    (hb : NoOverdraft b) (hn : b.Accounts n = some acc) (ha : F64.gt a F64.zero = true)
    (hwf : a.WF = true) :
    (Deposit b n a).1 = .ok () ∧
    (Withdraw (Deposit b n a).2 n a).1 = .ok () ∧
    (GetBalance (Withdraw (Deposit b n a).2 n a).2 n).1 =
      .ok (F64.sub (F64.add acc.Balance a) a) ∧
    (F64.addExact acc.Balance a = true → acc.Balance.WF = true →
      acc.Balance ≠ F64.fin true 0 → (Withdraw (Deposit b n a).2 n a).2 = b) := by
  have hle := F64.le_zero_of_gt_zero a ha
  have hge := hb n acc hn
  have hgt := F64.not_gt_add acc.Balance a hge ha hwf
  have hd := Deposit_ok b n a acc hn hle
  have hw : Withdraw (Deposit b n a).2 n a =
      (.ok (), b.store n { acc with Balance := F64.sub (F64.add acc.Balance a) a }) := by
    rw [hd]
    simp only
    rw [Withdraw_ok _ n a _ (Bank.store_same b n _) hle hgt, Bank.store_store]
  refine ⟨by rw [hd], by rw [hw], ?_, ?_⟩
  · rw [hw]; simp only
    rw [GetBalance_some _ n _ (Bank.store_same b n _)]
  · intro he hbwf hnz
    rw [hw]; simp only
    rw [F64.add_sub_cancel_of_exact acc.Balance a hge ha he hbwf hnz]
    exact Bank.store_self b n acc hn

theorem Deposit_then_Withdraw_witness :
    (Deposit ledgerA1 "A1" (F64.ofNat 30)).1 = .ok () ∧
    (Withdraw (Deposit ledgerA1 "A1" (F64.ofNat 30)).2 "A1" (F64.ofNat 30)).1 = .ok () ∧
    (Withdraw (Deposit ledgerA1 "A1" (F64.ofNat 30)).2 "A1" (F64.ofNat 30)).2 = ledgerA1 :=
  have h := Deposit_then_Withdraw ledgerA1 "A1"
    { AccountNumber := "A1", Balance := F64.ofNat 100 } (F64.ofNat 30)
    (NoOverdraft_run _ NewBank (fun k acc hk => by simp [NewBank] at hk) (by decide))
    (by decide!) (by decide!) (by decide!)
  ⟨h.1, h.2.1, h.2.2.2 (by decide!) (by decide!) (by decide)⟩

/-- A deposit followed by the withdrawal of the same amount does not restore negative zero:
a balance of -0 satisfies `balance >= 0`, and after `Deposit("A1", 1)` and
`Withdraw("A1", 1)` it is +0. -/
theorem negative_zero_not_restored :
    F64.ge (F64.fin true 0) F64.zero = true ∧
    (GetBalance ledgerNegZero "A1").1 = .ok (F64.fin true 0) ∧
    (GetBalance (Withdraw (Deposit ledgerNegZero "A1" (F64.ofNat 1)).2 "A1"
      (F64.ofNat 1)).2 "A1").1 = .ok (F64.fin false 0) := by
  decide!

/-! ## Conservation -/

/-- C19 as stated fails on `roundedRun`, in which every call succeeds: the final balance of
"A1" is `2^53`, the exact sum of the deposits minus the exact sum of the withdrawals is
`2^53 + 1`, and the float64 sum of the deposits minus the float64 sum of the withdrawals is
`2^53 - 1`. -/
theorem conservation_fails_on_rounding :
    changes NewBank "A1" roundedRun =
      [.credit (F64.ofNat (2 ^ 53)), .debit (F64.ofNat 1), .credit (F64.ofNat 1),
        .credit (F64.ofNat 1)] ∧
    (GetBalance (run NewBank roundedRun) "A1").1 = .ok (F64.ofNat (2 ^ 53)) ∧
    F64.toInt? (F64.ofNat (2 ^ 53)) = some (2 ^ 53 * 2 ^ 1074) ∧
    depositTotal (changes NewBank "A1" roundedRun)
      - withdrawTotal (changes NewBank "A1" roundedRun) = (2 ^ 53 + 1) * 2 ^ 1074 ∧
    (2 ^ 53 * 2 ^ 1074 : Int) ≠ (2 ^ 53 + 1) * 2 ^ 1074 ∧
    F64.sub (depositSum (changes NewBank "A1" roundedRun))
      (withdrawSum (changes NewBank "A1" roundedRun)) = F64.ofNat (2 ^ 53 - 1) ∧
    F64.ofNat (2 ^ 53 - 1) ≠ F64.ofNat (2 ^ 53) := by
  decide!

theorem balanceOrZero_store_same (b : Bank) (n : String) (acc : Account) :
    balanceOrZero (b.store n acc) n = acc.Balance := by
  simp [balanceOrZero, Bank.store_same]

theorem balanceOrZero_store_other (b : Bank) (n m : String) (acc : Account) (h : n ≠ m) :
    balanceOrZero (b.store m acc) n = balanceOrZero b n := by
  simp [balanceOrZero, Bank.store_other b m n acc h]

/-- One call changes the balance of `n` by the change it applies to `n`, if any. -/
theorem balanceOrZero_step (b : Bank) (n : String) (op : Op) :
    balanceOrZero (step b op) n =
      (change b n op).toList.foldl Change.apply (balanceOrZero b n) := by
  cases op with
  | create m =>
    simp only [change, Option.toList, List.foldl_nil, step]
    cases h : b.Accounts m with
    | some acc => rw [CreateAccount_some b m acc h]
    | none =>
      rw [CreateAccount_none b m h]
      by_cases hnm : n = m
      · subst hnm
        simp [balanceOrZero, Bank.store_same, h]
      · exact balanceOrZero_store_other b n m _ hnm
  | deposit m a =>
    simp only [change, step]
    cases h : b.Accounts m with
    | none => simp [Deposit_none b m a h]
    | some acc =>
      cases hle : F64.le a F64.zero with
      | true => simp [Deposit_invalid b m a acc h hle]
      | false =>
        rw [Deposit_ok b m a acc h hle]
        by_cases hnm : m = n
        · subst hnm
          simp [balanceOrZero, Bank.store_same, h, Change.apply]
        · simp [hnm, balanceOrZero_store_other b n m _ (Ne.symm hnm)]
  | withdraw m a =>
    simp only [change, step]
    cases h : b.Accounts m with
    | none => simp [Withdraw_none b m a h]
    | some acc =>
      cases hle : F64.le a F64.zero with
      | true => simp [Withdraw_invalid b m a acc h hle]
      | false =>
        cases hgt : F64.gt a acc.Balance with
        | true => simp [Withdraw_insufficient b m a acc h hle hgt]
        | false =>
          rw [Withdraw_ok b m a acc h hle hgt]
          by_cases hnm : m = n
          · subst hnm
            simp [balanceOrZero, Bank.store_same, h, Change.apply]
          · simp [hnm, balanceOrZero_store_other b n m _ (Ne.symm hnm)]
  | getBalance m =>
    simp only [change, Option.toList, List.foldl_nil, step]
    cases h : b.Accounts m with
    | none => rw [GetBalance_none b m h]
    | some acc => rw [GetBalance_some b m acc h]

/-- The balance of `n` after a run is the balance before it with the changes of the run
applied in call order. -/
theorem balanceOrZero_run (ops : List Op) (b : Bank) (n : String) :
    balanceOrZero (run b ops) n =
      (changes b n ops).foldl Change.apply (balanceOrZero b n) := by
  induction ops generalizing b with
  | nil => rfl
  | cons op rest ih =>
    have hrun : run b (op :: rest) = run (step b op) rest := rfl
    rw [hrun, ih (step b op), balanceOrZero_step]
    simp only [changes, List.foldl_append]

/-- Applying changes without rounding gives the exact starting value plus the credits minus
the debits. -/
theorem toInt_foldl_exact (cs : List Change) : ∀ (x : F64) (v : Int),
    F64.toInt? x = some v → exactAll x cs = true →
    F64.toInt? (cs.foldl Change.apply x) = some (v + depositTotal cs - withdrawTotal cs) := by
  induction cs with
  | nil =>
    intro x v hv _
    simp [depositTotal, withdrawTotal, hv]
  | cons c cs ih =>
    intro x v hv he
    simp only [exactAll, Bool.and_eq_true] at he
    obtain ⟨hc, hrest⟩ := he
    cases c with
    | credit a =>
      simp only [Change.exact] at hc
      obtain ⟨vx, va, hvx, hva, hsum⟩ := F64.toInt_add_of_exact x a hc
      rw [hv] at hvx
      cases hvx
      have h := ih (Change.apply x (.credit a)) (v + va) hsum hrest
      simp only [List.foldl_cons, depositTotal, withdrawTotal, hva, Option.getD_some]
      rw [h]
      congr 1
      omega
    | debit a =>
      simp only [Change.exact] at hc
      obtain ⟨vx, va, hvx, hva, hsum⟩ := F64.toInt_add_of_exact x (F64.neg a) hc
      rw [hv] at hvx
      cases hvx
      have hna : F64.toInt? a = some (-va) := by
        cases a with
        | nan => simp [F64.neg, F64.toInt?] at hva
        | inf t => simp [F64.neg, F64.toInt?] at hva
        | fin t k =>
          simp only [F64.neg, F64.toInt?, F64.sval_not, Option.some.injEq] at hva ⊢
          omega
      have h := ih (Change.apply x (.debit a)) (v + va) hsum hrest
      simp only [List.foldl_cons, depositTotal, withdrawTotal, hna, Option.getD_some]
      rw [h]
      congr 1
      omega

/-- C19, amended: for every finite sequence of operations applied to `NewBank()` and every
account `n` existing at the end, the final balance of `n` is 0.0 with the amounts of the
successful `Deposit(n, _)` calls added and those of the successful `Withdraw(n, _)` calls
subtracted in call order, in float64 arithmetic; failed calls and calls on other accounts
contribute nothing; and when none of these additions and subtractions is rounded, the final
balance equals the exact sum of the deposited amounts minus the exact sum of the withdrawn
amounts. -/
theorem balance_is_applied_changes (ops : List Op) (n : String) (acc : Account)
    (h : (run NewBank ops).Accounts n = some acc) :
    acc.Balance = (changes NewBank n ops).foldl Change.apply F64.zero ∧
    (exactAll F64.zero (changes NewBank n ops) = true →
      F64.toInt? acc.Balance =
        some (depositTotal (changes NewBank n ops) - withdrawTotal (changes NewBank n ops))) := by
  have hrun := balanceOrZero_run ops NewBank n
  have hb : balanceOrZero (run NewBank ops) n = acc.Balance := by
    simp [balanceOrZero, h]
  have h0 : balanceOrZero NewBank n = F64.zero := rfl
  rw [hb, h0] at hrun
  refine ⟨hrun, ?_⟩
  intro he
  have hx := toInt_foldl_exact (changes NewBank n ops) F64.zero 0 rfl he
  rw [hrun, hx]
  congr 1
  omega

theorem balance_is_applied_changes_witness :
    (run NewBank [.create "A1", .deposit "A1" (F64.ofNat 100), .withdraw "A1" (F64.ofNat 30),
      .withdraw "A1" (F64.ofNat 1000), .deposit "A2" (F64.ofNat 5)]).Accounts "A1" =
      some { AccountNumber := "A1", Balance := F64.ofNat 70 } ∧
    F64.toInt? (F64.ofNat 70) = some (100 * 2 ^ 1074 - 30 * 2 ^ 1074) :=
  have h := balance_is_applied_changes
    [.create "A1", .deposit "A1" (F64.ofNat 100), .withdraw "A1" (F64.ofNat 30),
      .withdraw "A1" (F64.ofNat 1000), .deposit "A2" (F64.ofNat 5)] "A1"
    { AccountNumber := "A1", Balance := F64.ofNat 70 } (by decide!)
  ⟨by decide!, (h.2 (by decide!)).trans (by decide!)⟩

end BankLedger
